import Mathlib

/-! # HolepunchRouter (lib/router.js)

A shallow embedding of the relay/routing core of the DHT: the registry
(`set` / `get` / `delete`), the two initiator calls (`peerHandshake`,
`peerHolepunch`) and the two dispatchers (`onpeerhandshake`,
`onpeerholepunch`).

Conventions of the embedding.

* A JavaScript value that may be `null` / `undefined` is an `Option`; every
  value that is an object when present (a Buffer, an address, a registration, a
  callback) is truthy, so `x && e` is `Option.bind` and `!x` is `x = none`.
* The collaborators that live outside `lib/router.js` are arguments: the record
  codec (`compact-encoding` with `./messages`), the transport request
  (`dht.request`), the registration callbacks and `safetyCatch`.
* An `async` function that throws is a function whose outcome records the
  raised value; the outbound actions `req.reply` / `req.relay` are recorded in
  the order the dispatcher issues them.
-/

namespace HolepunchRouter

/-! ## Constants (router.js lines 7-11) -/

def FROM_CLIENT : Nat := 0
def FROM_SERVER : Nat := 1
def FROM_RELAY : Nat := 2
def FROM_SECOND_RELAY : Nat := 3
def REPLY : Nat := 4

/-! ## Data model -/

/-- A Node.js Buffer: a finite sequence of bytes. -/
abbrev Buffer := List (Fin 256)

/-- A network address, the `{host, port}` objects of the transport. -/
structure Endpoint where
  host : String
  port : Nat
deriving DecidableEq, Repr

/-- A local socket handle; only its identity matters to the router. -/
abbrev Socket := Nat

/-- The constructor of a thrown JavaScript value. -/
inductive ErrClass where
  | Error
  | TypeError
  | SyntaxError
  | ReferenceError
  | EvalError
  | RangeError
  | URIError
  | AssertionError
deriving DecidableEq, Repr

/-- A thrown JavaScript value: its constructor and its message. -/
structure Err where
  cls : ErrClass
  message : String
deriving DecidableEq, Repr

/-- The value of `new Error('Bad handshake reply')` (line 62). -/
def badHandshakeReply : Err := ⟨ErrClass.Error, "Bad handshake reply"⟩

/-- The value of `new Error('Bad holepunch reply')` (line 148). -/
def badHolepunchReply : Err := ⟨ErrClass.Error, "Bad holepunch reply"⟩

/-- The handshake record of `./messages`: `mode` is an unsigned integer on the
wire, the other three fields may be absent. -/
structure Handshake where
  mode : Nat
  noise : Option Buffer
  peerAddress : Option Endpoint
  relayAddress : Option Endpoint
deriving DecidableEq, Repr

/-- The holepunch record of `./messages`. -/
structure Holepunch where
  mode : Nat
  id : Nat
  payload : Option Buffer
  peerAddress : Option Endpoint
deriving DecidableEq, Repr

/-- The record codec, `c.encode(enc, m)` and `c.decode(enc, val)` for the two
encodings of `./messages`, over wire values of type `W`. `c.decode` may throw,
and it may be handed an absent value. -/
structure Codec (W : Type) where
  encodeHandshake : Handshake → W
  decodeHandshake : Option W → Except Err Handshake
  encodeHolepunch : Holepunch → W
  decodeHolepunch : Option W → Except Err Holepunch

/-- A registry key argument: `set`, `get` and `delete` accept either a string or
a Buffer. -/
inductive Target where
  | str (s : String)
  | buf (b : Buffer)
deriving DecidableEq, Repr

/-- One lower-case hexadecimal digit. -/
def hexDigit (n : Nat) : Char :=
  if n < 10 then Char.ofNat (48 + n) else Char.ofNat (87 + n)

/-- The result of `Buffer.prototype.toString('hex')`: two lower-case digits per byte. -/
def toHex (b : Buffer) : String :=
  String.mk (b.flatMap fun x => [hexDigit (x.val / 16), hexDigit (x.val % 16)])

/-- The function `toString` of lines 205-207. -/
def toString (t : Target) : String :=
  match t with
  | Target.str s => s
  | Target.buf b => toHex b

/-- The inbound request context `req` of the transport: `req.target`,
`req.value`, `req.from` (here `from_`) and `req.to` (here `to_`). The transport
hands over the target as a Buffer or not at all. -/
structure Req (W : Type) where
  target : Option Buffer
  value : Option W
  from_ : Endpoint
  to_ : Endpoint

/-- The options object passed to `req.reply` and `req.relay`. -/
structure Opts where
  socket : Option Socket
  to_ : Option Endpoint
  closerNodes : Bool
  token : Bool
deriving DecidableEq, Repr

/-- An outbound action of a dispatcher: `req.reply(value, opts)` or
`req.relay(value, to, opts)`; `relay` is also called without options. -/
inductive Action (W : Type) where
  | reply (value : Option W) (opts : Opts)
  | relay (value : W) (to_ : Endpoint) (opts : Option Opts)
deriving DecidableEq, Repr

/-- The first argument of a handshake callback, `{ noise, peerAddress }`. -/
structure HandshakePayload where
  noise : Option Buffer
  peerAddress : Option Endpoint
deriving DecidableEq, Repr

/-- The first argument of a holepunch callback, `{ id, payload, peerAddress }`. -/
structure HolepunchPayload where
  id : Nat
  payload : Option Buffer
  peerAddress : Option Endpoint
deriving DecidableEq, Repr

/-- What a handshake callback resolves to when it resolves to an object. -/
structure HandshakeReply where
  noise : Option Buffer
  socket : Option Socket
deriving DecidableEq, Repr

/-- What a holepunch callback resolves to when it resolves to an object. -/
structure HolepunchReply where
  payload : Option Buffer
  socket : Option Socket
deriving DecidableEq, Repr

/-- A registration `state`: the object handed to `set`. A callback either throws
(`Except.error`), resolves to nothing (`none`) or resolves to a reply object. -/
structure State (W : Type) where
  onpeerhandshake : Option (HandshakePayload → Req W → Except Err (Option HandshakeReply))
  onpeerholepunch : Option (HolepunchPayload → Req W → Except Err (Option HolepunchReply))
  relay : Option Endpoint

/-- A callback invocation made by a dispatcher. -/
inductive Call where
  | handshake (payload : HandshakePayload)
  | holepunch (payload : HolepunchPayload)
deriving DecidableEq, Repr

/-- Everything one dispatcher run does that its environment can see: the
registration callbacks it invoked, the replies and relays it issued, and the
value it raised, if any. -/
structure Outcome (W : Type) where
  calls : List Call
  actions : List (Action W)
  raised : Option Err
deriving DecidableEq, Repr

/-- A run that does nothing: the bare `return` of the dispatchers. -/
def Outcome.dropped {W : Type} : Outcome W := ⟨[], [], none⟩

/-! ## The two stores -/

/-- The durable store `this.servers`, a JavaScript `Map` keyed by strings. -/
abbrev ServerMap (W : Type) := String → Option (State W)

/-- Binding of `Map.prototype.set`. -/
def ServerMap.set {W : Type} (m : ServerMap W) (k : String) (v : State W) : ServerMap W :=
  fun j => if j = k then some v else m j

/-- Binding of `Map.prototype.delete`. -/
def ServerMap.delete {W : Type} (m : ServerMap W) (k : String) : ServerMap W :=
  fun j => if j = k then none else m j

/-- Modelled from the spec: the bounded store `this.forwards` (the `xache`
package, not part of the source file). It is a key-value store that may drop
entries: the content is the entries it still holds. -/
abbrev Cache (W : Type) := String → Option (State W)

/-- Modelled from the spec: a write into the bounded store. The store writes the
entry and then drops the keys its capacity policy selects, `evicted`; nothing
constrains that selection. -/
def Cache.set {W : Type} (c : Cache W) (k : String) (v : State W) (evicted : String → Bool) :
    Cache W :=
  fun j => if evicted j then none else if j = k then some v else c j

/-- Modelled from the spec: removal of one key from the bounded store. -/
def Cache.delete {W : Type} (c : Cache W) (k : String) : Cache W :=
  fun j => if j = k then none else c j

/-- Modelled from the spec: the age policy of the bounded store, which drops the
keys `evicted` between two operations of the router. -/
def Cache.expire {W : Type} (c : Cache W) (evicted : String → Bool) : Cache W :=
  fun j => if evicted j then none else c j

/-- The router object: `this.servers` and `this.forwards` (lines 19-23). -/
structure Router (W : Type) where
  servers : ServerMap W
  forwards : Cache W

/-- The router right after its constructor ran. -/
def Router.empty {W : Type} : Router W := ⟨fun _ => none, fun _ => none⟩

/-- The method `set` of lines 25-36; `evicted` is what the bounded store drops
during the write, when the write goes to it. -/
def set {W : Type} (r : Router W) (target : Target) (state : State W)
    (evicted : String → Bool) : Router W :=
  let k := toString target
  if state.onpeerhandshake.isSome then
    { servers := r.servers.set k state, forwards := r.forwards.delete k }
  else
    { forwards := r.forwards.set k state evicted, servers := r.servers.delete k }

/-- The method `get` of lines 38-41. -/
def get {W : Type} (r : Router W) (target : Target) : Option (State W) :=
  let k := toString target
  match r.servers k with
  | some s => some s
  | none => r.forwards k

/-- The method `delete` of lines 43-47. -/
def delete {W : Type} (r : Router W) (target : Target) : Router W :=
  let k := toString target
  { servers := r.servers.delete k, forwards := r.forwards.delete k }

/-- The age policy of the bounded store acting on the router between two calls. -/
def expire {W : Type} (r : Router W) (evicted : String → Bool) : Router W :=
  { servers := r.servers, forwards := r.forwards.expire evicted }

/-- The registries the router can be in: the constructor's, and any registry
obtained from one of those by `set`, by `delete`, or by the bounded store
dropping entries. -/
inductive Reachable {W : Type} : Router W → Prop where
  | empty : Reachable Router.empty
  | set (r : Router W) (target : Target) (state : State W) (evicted : String → Bool) :
      Reachable r → Reachable (set r target state evicted)
  | delete (r : Router W) (target : Target) : Reachable r → Reachable (delete r target)
  | expire (r : Router W) (evicted : String → Bool) : Reachable r → Reachable (expire r evicted)

/-! ## Decoding (lines 197-203) -/

/-- The function `decode` of lines 197-203: whatever `c.decode` throws becomes an
absent record. -/
def decode {W α : Type} (dec : Option W → Except Err α) (val : Option W) : Option α :=
  match dec val with
  | Except.ok m => some m
  | Except.error _ => none

/-! ## The transport, seen from an initiator -/

/-- The two entries of `COMMANDS` (in `./constants`) the router uses. -/
inductive Command where
  | PEER_HANDSHAKE
  | PEER_HOLEPUNCH
deriving DecidableEq, Repr

/-- The first argument of `dht.request`: `{ command, target, value }`. -/
structure RequestDesc (W : Type) where
  command : Command
  target : Buffer
  value : W

/-- What `dht.request` resolves to: `res.from` (here `from_`), `res.to` (here
`to_`) and `res.value`. -/
structure Response (W : Type) where
  from_ : Endpoint
  to_ : Endpoint
  value : Option W

/-- The method `dht.request(desc, to, opts)`: it resolves to a response or it
rejects. The third argument is absent (`none`) or an object `{ socket }`. -/
abbrev Request (W : Type) :=
  RequestDesc W → Endpoint → Option (Option Socket) → Except Err (Response W)

/-- The second argument of `peerHandshake`: `{ noise, peerAddress, relayAddress }`. -/
structure HandshakeArgs where
  noise : Option Buffer
  peerAddress : Option Endpoint
  relayAddress : Option Endpoint
deriving DecidableEq, Repr

/-- The object `peerHandshake` resolves to. -/
structure HandshakeResult where
  noise : Option Buffer
  relayed : Bool
  serverAddress : Endpoint
  clientAddress : Endpoint
deriving DecidableEq, Repr

/-- The second argument of `peerHolepunch`: `{ id, payload, peerAddress, socket }`. -/
structure HolepunchArgs where
  id : Nat
  payload : Option Buffer
  peerAddress : Option Endpoint
  socket : Option Socket
deriving DecidableEq, Repr

/-- The object `peerHolepunch` resolves to. -/
structure HolepunchResult where
  from_ : Endpoint
  to_ : Endpoint
  payload : Option Buffer
  peerAddress : Option Endpoint
deriving DecidableEq, Repr

/-! ## Initiator side -/

/-- The method `peerHandshake` of lines 49-71. -/
def peerHandshake {W : Type} (codec : Codec W) (request : Request W) (target : Buffer)
    (args : HandshakeArgs) (to_ : Endpoint) : Except Err HandshakeResult :=
  let requestValue := codec.encodeHandshake
    { mode := FROM_CLIENT, noise := args.noise, peerAddress := args.peerAddress,
      relayAddress := args.relayAddress }
  match request { command := Command.PEER_HANDSHAKE, target := target, value := requestValue }
      to_ none with
  | Except.error e => Except.error e
  | Except.ok res =>
    match decode codec.decodeHandshake res.value with
    | none => Except.error badHandshakeReply
    | some hs =>
      if hs.mode ≠ REPLY ∨ (to_.host ≠ res.from_.host ∨ to_.port ≠ res.from_.port)
          ∨ hs.noise = none then
        Except.error badHandshakeReply
      else
        Except.ok
          { noise := hs.noise
            relayed := hs.peerAddress.isSome
            serverAddress := hs.peerAddress.getD to_
            clientAddress := res.to_ }

/-- The method `peerHolepunch` of lines 135-157. -/
def peerHolepunch {W : Type} (codec : Codec W) (request : Request W) (target : Buffer)
    (args : HolepunchArgs) (to_ : Endpoint) : Except Err HolepunchResult :=
  let requestValue := codec.encodeHolepunch
    { mode := FROM_CLIENT, id := args.id, payload := args.payload,
      peerAddress := args.peerAddress }
  match request { command := Command.PEER_HOLEPUNCH, target := target, value := requestValue }
      to_ (some args.socket) with
  | Except.error e => Except.error e
  | Except.ok res =>
    match decode codec.decodeHolepunch res.value with
    | none => Except.error badHolepunchReply
    | some hp =>
      if hp.mode ≠ REPLY ∨ (to_.host ≠ res.from_.host ∨ to_.port ≠ res.from_.port) then
        Except.error badHolepunchReply
      else
        Except.ok
          { from_ := res.from_
            to_ := res.to_
            payload := hp.payload
            peerAddress := hp.peerAddress }

/-! ## Responder / relay side -/

/-- The registration a dispatcher works with: `req.target && this.get(req.target)`
(lines 79 and 165). -/
def stateOf {W : Type} (r : Router W) (req : Req W) : Option (State W) :=
  req.target.bind fun t => get r (Target.buf t)

/-- The flag `isServer` of `onpeerhandshake` (line 80): the registration carries
a handshake callback. -/
def isServer {W : Type} (r : Router W) (req : Req W) : Bool :=
  ((stateOf r req).bind fun s => s.onpeerhandshake).isSome

/-- The flag `isServer` of `onpeerholepunch` (line 166): the registration carries
a holepunch callback. -/
def isHolepunchServer {W : Type} (r : Router W) (req : Req W) : Bool :=
  ((stateOf r req).bind fun s => s.onpeerholepunch).isSome

/-- The remembered relay, `state && state.relay` (lines 81 and 167). -/
def relayOf {W : Type} (r : Router W) (req : Req W) : Option Endpoint :=
  (stateOf r req).bind fun s => s.relay

/-- The `catch (e) { safetyCatch(e); return }` blocks (lines 87-90 and 180-183):
nothing is sent, and the run raises exactly what `safetyCatch` raises. -/
def caught {W : Type} (safetyCatch : Err → Except Err Unit) (calls : List Call) (e : Err) :
    Outcome W :=
  match safetyCatch e with
  | Except.error e2 => ⟨calls, [], some e2⟩
  | Except.ok _ => ⟨calls, [], none⟩

/-- The method `onpeerhandshake` of lines 73-133. `safetyCatch` is the function
imported from the `safety-catch` package. -/
def onpeerhandshake {W : Type} (codec : Codec W) (safetyCatch : Err → Except Err Unit)
    (r : Router W) (req : Req W) : Outcome W :=
  match req.value.bind fun v => decode codec.decodeHandshake (some v) with
  | none => Outcome.dropped
  | some hs =>
    let state := stateOf r req
    let relay := state.bind fun s => s.relay
    match state.bind fun s => s.onpeerhandshake with
    | some callback =>
      match hs.noise with
      | none => Outcome.dropped
      | some noise =>
        let payload : HandshakePayload := { noise := some noise, peerAddress := hs.peerAddress }
        match callback payload req with
        | Except.error e => caught safetyCatch [Call.handshake payload] e
        | Except.ok none => ⟨[Call.handshake payload], [], none⟩
        | Except.ok (some reply) =>
          match reply.noise with
          | none => ⟨[Call.handshake payload], [], none⟩
          | some replyNoise =>
            let opts : Opts :=
              { socket := reply.socket, to_ := none, closerNodes := false, token := false }
            if hs.mode = FROM_CLIENT then
              ⟨[Call.handshake payload],
                [Action.reply (some (codec.encodeHandshake
                  { mode := REPLY, noise := some replyNoise, peerAddress := none,
                    relayAddress := none })) opts], none⟩
            else if hs.mode = FROM_RELAY then
              ⟨[Call.handshake payload],
                [Action.relay (codec.encodeHandshake
                  { mode := FROM_SERVER, noise := some replyNoise,
                    peerAddress := hs.peerAddress, relayAddress := none })
                  req.from_ (some opts)], none⟩
            else if hs.mode = FROM_SECOND_RELAY then
              match hs.relayAddress with
              | none => ⟨[Call.handshake payload], [], none⟩
              | some relayAddress =>
                ⟨[Call.handshake payload],
                  [Action.relay (codec.encodeHandshake
                    { mode := FROM_SERVER, noise := some replyNoise,
                      peerAddress := hs.peerAddress, relayAddress := none })
                    relayAddress (some opts)], none⟩
            else ⟨[Call.handshake payload], [], none⟩
    | none =>
      if hs.mode = FROM_CLIENT then
        match hs.noise with
        | none => Outcome.dropped
        | some noise =>
          match hs.relayAddress, relay with
          | none, none =>
            ⟨[], [Action.reply none
              { socket := none, to_ := none, closerNodes := true, token := false }], none⟩
          | some relayAddress, _ =>
            ⟨[], [Action.relay (codec.encodeHandshake
              { mode := FROM_RELAY, noise := some noise, peerAddress := some req.from_,
                relayAddress := none }) relayAddress none], none⟩
          | none, some remembered =>
            ⟨[], [Action.relay (codec.encodeHandshake
              { mode := FROM_RELAY, noise := some noise, peerAddress := some req.from_,
                relayAddress := none }) remembered none], none⟩
      else if hs.mode = FROM_RELAY then
        match relay, hs.noise with
        | some remembered, some noise =>
          ⟨[], [Action.relay (codec.encodeHandshake
            { mode := FROM_SECOND_RELAY, noise := some noise, peerAddress := hs.peerAddress,
              relayAddress := some req.from_ }) remembered none], none⟩
        | _, _ => Outcome.dropped
      else if hs.mode = FROM_SERVER then
        match hs.peerAddress, hs.noise with
        | some peerAddress, some noise =>
          ⟨[], [Action.reply (some (codec.encodeHandshake
            { mode := REPLY, noise := some noise, peerAddress := some req.from_,
              relayAddress := none }))
            { socket := none, to_ := some peerAddress, closerNodes := false, token := false }],
            none⟩
        | _, _ => Outcome.dropped
      else Outcome.dropped

/-- The method `onpeerholepunch` of lines 159-194. -/
def onpeerholepunch {W : Type} (codec : Codec W) (safetyCatch : Err → Except Err Unit)
    (r : Router W) (req : Req W) : Outcome W :=
  match req.value.bind fun v => decode codec.decodeHolepunch (some v) with
  | none => Outcome.dropped
  | some hp =>
    let state := stateOf r req
    let relay := state.bind fun s => s.relay
    if hp.mode = FROM_CLIENT then
      match hp.peerAddress, relay with
      | none, none => Outcome.dropped
      | some peerAddress, _ =>
        ⟨[], [Action.relay (codec.encodeHolepunch
          { mode := FROM_RELAY, id := hp.id, payload := hp.payload,
            peerAddress := some req.from_ }) peerAddress none], none⟩
      | none, some remembered =>
        ⟨[], [Action.relay (codec.encodeHolepunch
          { mode := FROM_RELAY, id := hp.id, payload := hp.payload,
            peerAddress := some req.from_ }) remembered none], none⟩
    else if hp.mode = FROM_RELAY then
      match state.bind fun s => s.onpeerholepunch, hp.peerAddress with
      | some callback, some peerAddress =>
        let payload : HolepunchPayload :=
          { id := hp.id, payload := hp.payload, peerAddress := some peerAddress }
        match callback payload req with
        | Except.error e => caught safetyCatch [Call.holepunch payload] e
        | Except.ok none => ⟨[Call.holepunch payload], [], none⟩
        | Except.ok (some reply) =>
          let opts : Opts :=
            { socket := reply.socket, to_ := none, closerNodes := false, token := false }
          ⟨[Call.holepunch payload],
            [Action.relay (codec.encodeHolepunch
              { mode := FROM_SERVER, id := 0, payload := reply.payload,
                peerAddress := some peerAddress }) req.from_ (some opts)], none⟩
      | _, _ => Outcome.dropped
    else if hp.mode = FROM_SERVER then
      ⟨[], [Action.reply (some (codec.encodeHolepunch
        { mode := REPLY, id := hp.id, payload := hp.payload, peerAddress := some req.from_ }))
        { socket := none, to_ := hp.peerAddress, closerNodes := false, token := false }], none⟩
    else Outcome.dropped

/-! ## Collaborators used in the examples -/

/-- The `safety-catch` package, as published: it rethrows the value it is given
when that value is a programming error (a `TypeError`, `SyntaxError`,
`ReferenceError`, `EvalError`, `RangeError`, `URIError` or a failed assertion)
and returns normally for every other value. -/
def safetyCatchPkg (e : Err) : Except Err Unit :=
  if e.cls = ErrClass.Error then Except.ok () else Except.error e

/-- A wire format in which a value is the record itself. -/
abbrev PlainWire := Handshake ⊕ Holepunch

/-- The value `c.decode` throws on a wire value of the wrong shape. -/
def decodeFailure : Err := ⟨ErrClass.RangeError, "Out of bounds"⟩

/-- The codec of the `PlainWire` format. -/
def plainCodec : Codec PlainWire where
  encodeHandshake := Sum.inl
  decodeHandshake := fun v =>
    match v with
    | some (Sum.inl m) => Except.ok m
    | _ => Except.error decodeFailure
  encodeHolepunch := Sum.inr
  decodeHolepunch := fun v =>
    match v with
    | some (Sum.inr m) => Except.ok m
    | _ => Except.error decodeFailure

/-- A Buffer as a wire format that writes only the bytes gives it back: a Buffer
of length zero comes back absent. -/
def readBuffer (b : Option Buffer) : Option Buffer :=
  match b with
  | some [] => none
  | other => other

/-- A codec over `PlainWire` that does not decode every record to what was
encoded: an empty noise or payload is read back as absent. The other fields,
the mode among them, are read back as written. -/
def lossyCodec : Codec PlainWire where
  encodeHandshake := Sum.inl
  decodeHandshake := fun v =>
    match v with
    | some (Sum.inl m) =>
      Except.ok
        { mode := m.mode, noise := readBuffer m.noise, peerAddress := m.peerAddress,
          relayAddress := m.relayAddress }
    | _ => Except.error decodeFailure
  encodeHolepunch := Sum.inr
  decodeHolepunch := fun v =>
    match v with
    | some (Sum.inr m) =>
      Except.ok
        { mode := m.mode, id := m.id, payload := readBuffer m.payload,
          peerAddress := m.peerAddress }
    | _ => Except.error decodeFailure

/-- Address of the client in the examples. -/
def clientAddr : Endpoint := ⟨"10.0.0.1", 1001⟩

/-- Address under which the client is seen from outside. -/
def observedAddr : Endpoint := ⟨"198.51.100.7", 40001⟩

/-- Address of the relay in the examples. -/
def relayAddr : Endpoint := ⟨"10.0.0.2", 2002⟩

/-- Address of the server in the examples. -/
def serverAddr : Endpoint := ⟨"10.0.0.3", 3003⟩

/-- Address of a second relay in the examples. -/
def otherAddr : Endpoint := ⟨"10.0.0.4", 4004⟩

/-- A target in the examples. -/
def exTarget : Buffer := [0xab, 0xcd]

/-- The noise bytes of the client. -/
def noiseA : Buffer := [65]

/-- The noise bytes of the server. -/
def noiseB : Buffer := [66]

/-- A transport whose request always resolves to the given response. -/
def respondWith {W : Type} (res : Response W) : Request W := fun _ _ _ => Except.ok res

/-- A well-formed handshake reply that arrives from the queried relay. -/
def goodHandshakeResponse : Response PlainWire :=
  { from_ := relayAddr, to_ := observedAddr,
    value := some (Sum.inl
      { mode := REPLY, noise := some noiseB, peerAddress := some serverAddr,
        relayAddress := none }) }

/-- The arguments of the client in the examples. -/
def exHandshakeArgs : HandshakeArgs :=
  { noise := some noiseA, peerAddress := none, relayAddress := some serverAddr }

/-- A Forward registration with no remembered relay. -/
def forwardState : State PlainWire :=
  { onpeerhandshake := none, onpeerholepunch := none, relay := none }

/-- A Forward registration that remembers a relay. -/
def forwardViaOther : State PlainWire :=
  { onpeerhandshake := none, onpeerholepunch := none, relay := some otherAddr }

/-- A Server registration whose handshake callback answers with `noiseB` and
whose holepunch callback echoes the payload. -/
def serverState : State PlainWire :=
  { onpeerhandshake := some fun _ _ => Except.ok (some { noise := some noiseB, socket := some 7 })
    onpeerholepunch := some fun p _ => Except.ok (some { payload := p.payload, socket := none })
    relay := none }

/-- A store policy that drops nothing. -/
def evictNothing : String → Bool := fun _ => false

/-- A store policy that drops every entry. -/
def evictEverything : String → Bool := fun _ => true

/-- A registry in which `exTarget` is first known as a Forward entry and then
registered as a Server. -/
def exRegistry : Router PlainWire :=
  set (set Router.empty (Target.buf exTarget) forwardState evictNothing)
    (Target.buf exTarget) serverState evictNothing

/-- A direct handshake request of the client for `exTarget`, as the server sees it. -/
def directRequest : Req PlainWire :=
  { target := some exTarget
    value := some (Sum.inl
      { mode := FROM_CLIENT, noise := some noiseA, peerAddress := none, relayAddress := none })
    from_ := clientAddr
    to_ := serverAddr }

/-- The value a faulty callback throws in the examples. -/
def callbackTypeError : Err := ⟨ErrClass.TypeError, "Cannot read properties of undefined"⟩

/-- A Server registration whose two callbacks throw a `TypeError`. -/
def throwingState : State PlainWire :=
  { onpeerhandshake := some fun _ _ => Except.error callbackTypeError
    onpeerholepunch := some fun _ _ => Except.error callbackTypeError
    relay := none }

/-- A registry in which `exTarget` is registered with the throwing callbacks. -/
def throwingRegistry : Router PlainWire :=
  set Router.empty (Target.buf exTarget) throwingState evictNothing

/-- A relayed handshake for `exTarget`, as the next node sees it: mode FROM_RELAY,
sent by `relayAddr` on behalf of the client. -/
def relayedRequest : Req PlainWire :=
  { target := some exTarget
    value := some (Sum.inl
      { mode := FROM_RELAY, noise := some noiseA, peerAddress := some clientAddr,
        relayAddress := none })
    from_ := relayAddr
    to_ := otherAddr }

/-- A registry that only remembers, for `exTarget`, the relay `otherAddr`. -/
def relayRegistry : Router PlainWire :=
  set Router.empty (Target.buf exTarget) forwardViaOther evictNothing

/-- A holepunch request for `exTarget` in mode FROM_RELAY, as the server sees it. -/
def relayedPunch : Req PlainWire :=
  { target := some exTarget
    value := some (Sum.inr
      { mode := FROM_RELAY, id := 5, payload := some [1, 2], peerAddress := some clientAddr })
    from_ := relayAddr
    to_ := serverAddr }

/-- A request whose value is a holepunch record, handed to the handshake dispatcher. -/
def wrongShapeRequest : Req PlainWire :=
  { target := some exTarget
    value := some (Sum.inr
      { mode := FROM_CLIENT, id := 1, payload := none, peerAddress := some clientAddr })
    from_ := clientAddr
    to_ := serverAddr }

/-- A request without a value. -/
def emptyRequest : Req PlainWire :=
  { target := some exTarget, value := none, from_ := clientAddr, to_ := serverAddr }

/-- The value a callback throws when it fails for an operational reason. -/
def callbackFailure : Err := ⟨ErrClass.Error, "Server is closed"⟩

/-- A Server registration whose two callbacks throw a plain `Error`. -/
def failingState : State PlainWire :=
  { onpeerhandshake := some fun _ _ => Except.error callbackFailure
    onpeerholepunch := some fun _ _ => Except.error callbackFailure
    relay := none }

/-- A registry in which `exTarget` is registered with the failing callbacks. -/
def failingRegistry : Router PlainWire :=
  set Router.empty (Target.buf exTarget) failingState evictNothing

/-- A well-formed holepunch reply that arrives from the queried relay. -/
def goodHolepunchResponse : Response PlainWire :=
  { from_ := relayAddr, to_ := observedAddr,
    value := some (Sum.inr
      { mode := REPLY, id := 0, payload := none, peerAddress := some serverAddr }) }

/-- The holepunch arguments of the client in the examples. -/
def exHolepunchArgs : HolepunchArgs :=
  { id := 1, payload := some [9], peerAddress := some serverAddr, socket := some 3 }

/-- The value `dht.request` rejects with when no reply arrives. -/
def requestTimeout : Err := ⟨ErrClass.Error, "Request timed out"⟩

/-- Modelled from the spec: the transport of the single-relay scenario, seen
from the client. The request goes to the node at `relay`, which sees it as sent
from `client`. A relay issued by that node is delivered to the node at `server`
as a request sent from `relay`; a relay issued by the server is delivered back
to the node at `relay` as a request sent from `server`; the reply that node then
issues toward `client` reaches the client as a response sent from `relay`, with
`observed` as the address the client is seen under. Whatever else happens, no
reply arrives and the request times out. -/
def singleRelayRequest {W : Type} (codec : Codec W) (safetyCatch : Err → Except Err Unit)
    (routerR routerS : Router W) (client observed relay server : Endpoint) : Request W :=
  fun desc to_ _ =>
    if to_ ≠ relay then Except.error requestTimeout
    else
      match (onpeerhandshake codec safetyCatch routerR
          { target := some desc.target, value := some desc.value, from_ := client,
            to_ := relay }).actions with
      | [Action.relay v1 d1 _] =>
        if d1 ≠ server then Except.error requestTimeout
        else
          match (onpeerhandshake codec safetyCatch routerS
              { target := some desc.target, value := some v1, from_ := relay,
                to_ := server }).actions with
          | [Action.relay v2 d2 _] =>
            if d2 ≠ relay then Except.error requestTimeout
            else
              match (onpeerhandshake codec safetyCatch routerR
                  { target := some desc.target, value := some v2, from_ := server,
                    to_ := relay }).actions with
              | [Action.reply v3 opts] =>
                if opts.to_ = some client then
                  Except.ok { from_ := relay, to_ := observed, value := v3 }
                else Except.error requestTimeout
              | _ => Except.error requestTimeout
          | _ => Except.error requestTimeout
      | _ => Except.error requestTimeout

/-- The registry of the relay in the single-relay scenario: `exTarget` is known
as a Forward entry without a remembered relay. -/
def relayNodeRegistry : Router PlainWire :=
  set Router.empty (Target.buf exTarget) forwardState evictNothing

/-! ## Hexadecimal strings -/

/-- Modelled from the spec: the value of one hexadecimal digit, in either case,
given by its code point. -/
def hexValue (c : Char) : Option Nat :=
  if 48 ≤ c.toNat ∧ c.toNat ≤ 57 then some (c.toNat - 48)
  else if 97 ≤ c.toNat ∧ c.toNat ≤ 102 then some (c.toNat - 87)
  else if 65 ≤ c.toNat ∧ c.toNat ≤ 70 then some (c.toNat - 55)
  else none

/-- Modelled from the spec: the hexadecimal decoding of a sequence of characters,
two digits per byte; a sequence of odd length or with another character has no
decoding. -/
def hexDecode : List Char → Option Buffer
  | [] => some []
  | [_] => none
  | hi :: lo :: rest =>
    match hexValue hi, hexValue lo, hexDecode rest with
    | some h, some l, some bytes => some (Fin.ofNat (16 * h + l) :: bytes)
    | _, _, _ => none

/-- A digit `0`-`9` or a lower-case letter `a`-`f`. -/
def isLowerHexDigit (c : Char) : Bool :=
  (48 ≤ c.toNat && c.toNat ≤ 57) || (97 ≤ c.toNat && c.toNat ≤ 102)

/-- A handshake request of the client that names the server as relayAddress and
claims `otherAddr` as its own address, as the relay sees it. -/
def viaRelayRequest : Req PlainWire :=
  { target := some exTarget
    value := some (Sum.inl
      { mode := FROM_CLIENT, noise := some noiseA, peerAddress := some otherAddr,
        relayAddress := some serverAddr })
    from_ := clientAddr
    to_ := relayAddr }

/-- The answer of the server on its way back, mode FROM_SERVER, as the relay sees it. -/
def serverAnswerRequest : Req PlainWire :=
  { target := some exTarget
    value := some (Sum.inl
      { mode := FROM_SERVER, noise := some noiseB, peerAddress := some clientAddr,
        relayAddress := none })
    from_ := serverAddr
    to_ := relayAddr }

/-- A holepunch request of the client that names the server, as the relay sees it. -/
def clientPunch : Req PlainWire :=
  { target := some exTarget
    value := some (Sum.inr
      { mode := FROM_CLIENT, id := 5, payload := some [1, 2], peerAddress := some serverAddr })
    from_ := clientAddr
    to_ := relayAddr }

/-- A holepunch answer on its way back, mode FROM_SERVER, without peerAddress, as
the relay sees it. -/
def unaddressedAnswerPunch : Req PlainWire :=
  { target := some exTarget
    value := some (Sum.inr
      { mode := FROM_SERVER, id := 0, payload := some [1, 2], peerAddress := none })
    from_ := serverAddr
    to_ := relayAddr }

/-- A holepunch answer on its way back, mode FROM_SERVER, addressed to the client. -/
def addressedAnswerPunch : Req PlainWire :=
  { target := some exTarget
    value := some (Sum.inr
      { mode := FROM_SERVER, id := 0, payload := some [1, 2], peerAddress := some clientAddr })
    from_ := serverAddr
    to_ := relayAddr }

/-- A registration that carries a holepunch callback and no handshake callback. -/
def punchOnlyState : State PlainWire :=
  { onpeerhandshake := none
    onpeerholepunch := some fun p _ => Except.ok (some { payload := p.payload, socket := none })
    relay := none }

/-- A registration that carries a handshake callback and no holepunch callback. -/
def handshakeOnlyState : State PlainWire :=
  { onpeerhandshake := some fun _ _ => Except.ok (some { noise := some noiseB, socket := none })
    onpeerholepunch := none
    relay := none }

/-- The registry after `set(exTarget, punchOnlyState)` on a fresh router. -/
def punchOnlyRegistry : Router PlainWire :=
  set Router.empty (Target.buf exTarget) punchOnlyState evictNothing

/-- The registry after `set(exTarget, handshakeOnlyState)` on a fresh router. -/
def handshakeOnlyRegistry : Router PlainWire :=
  set Router.empty (Target.buf exTarget) handshakeOnlyState evictNothing

/-- A holepunch request of a client that names no peer, as a node without any
registration sees it. -/
def unroutedPunch : Req PlainWire :=
  { target := some exTarget
    value := some (Sum.inr
      { mode := FROM_CLIENT, id := 5, payload := some [1, 2], peerAddress := none })
    from_ := clientAddr
    to_ := relayAddr }

/-! ## Mode progress -/

/-- The rank of a mode in the order FROM_CLIENT < FROM_RELAY < FROM_SECOND_RELAY <
FROM_SERVER < REPLY; a number that is none of the five modes ranks above them. -/
def modeRank (mode : Nat) : Nat :=
  if mode = FROM_CLIENT then 0
  else if mode = FROM_RELAY then 1
  else if mode = FROM_SECOND_RELAY then 2
  else if mode = FROM_SERVER then 3
  else if mode = REPLY then 4
  else 5

/-- The wire value an outbound action carries, if it carries one. -/
def Action.payload {W : Type} : Action W → Option W
  | Action.reply value _ => value
  | Action.relay value _ _ => some value

/-- One step of a handshake chain: some node, dispatching a request whose value
decodes to `m`, issues an action whose value its receiver decodes to `m2`. -/
def HandshakeStep {W : Type} (codec : Codec W) (safetyCatch : Err → Except Err Unit)
    (m m2 : Handshake) : Prop :=
  ∃ (r : Router W) (req : Req W) (v w : W) (a : Action W),
    req.value = some v ∧ codec.decodeHandshake (some v) = Except.ok m ∧
    a ∈ (onpeerhandshake codec safetyCatch r req).actions ∧
    a.payload = some w ∧ codec.decodeHandshake (some w) = Except.ok m2

/-- One step of a holepunch chain: some node, dispatching a request whose value
decodes to `m`, issues an action whose value its receiver decodes to `m2`. -/
def HolepunchStep {W : Type} (codec : Codec W) (safetyCatch : Err → Except Err Unit)
    (m m2 : Holepunch) : Prop :=
  ∃ (r : Router W) (req : Req W) (v w : W) (a : Action W),
    req.value = some v ∧ codec.decodeHolepunch (some v) = Except.ok m ∧
    a ∈ (onpeerholepunch codec safetyCatch r req).actions ∧
    a.payload = some w ∧ codec.decodeHolepunch (some w) = Except.ok m2

/-- The handshake of the client in the two-relay example. -/
def helloMsg : Handshake :=
  { mode := FROM_CLIENT, noise := some noiseA, peerAddress := some otherAddr,
    relayAddress := some serverAddr }

/-- The handshake as the first relay forwards it. -/
def relayedMsg : Handshake :=
  { mode := FROM_RELAY, noise := some noiseA, peerAddress := some clientAddr,
    relayAddress := none }

/-- The handshake as the second relay forwards it. -/
def secondRelayMsg : Handshake :=
  { mode := FROM_SECOND_RELAY, noise := some noiseA, peerAddress := some clientAddr,
    relayAddress := some relayAddr }

/-- The answer of the server. -/
def answerMsg : Handshake :=
  { mode := FROM_SERVER, noise := some noiseB, peerAddress := some clientAddr,
    relayAddress := none }

/-- The reply the first relay hands to the client. -/
def replyMsg : Handshake :=
  { mode := REPLY, noise := some noiseB, peerAddress := some serverAddr,
    relayAddress := none }

/-- The handshake forwarded by the second relay, as the server sees it. -/
def secondRelayRequest : Req PlainWire :=
  { target := some exTarget
    value := some (Sum.inl secondRelayMsg)
    from_ := otherAddr
    to_ := serverAddr }

/-! # Properties -/

/-! ## Initiator side: reply validation -/

/-- C1: for every transport response `res`, `peerHandshake` fails with the
bad-reply error exactly when `res.value` does not decode, or the decoded mode is
not REPLY, or `res.from` differs from `to` in host or port, or the decoded noise
is absent; a reply from another address is rejected whatever else it carries;
and in every other case the call returns the decoded noise, `relayed` true
exactly when the decoded peerAddress is present, `serverAddress` the decoded
peerAddress when present and `to` otherwise, and `clientAddress` equal to
`res.to`. -/
theorem peerHandshake_reply_check {W : Type} (codec : Codec W) (request : Request W)
    (target : Buffer) (args : HandshakeArgs) (to_ : Endpoint) (res : Response W)
    (hres : request
      { command := Command.PEER_HANDSHAKE, target := target,
        value := codec.encodeHandshake
          { mode := FROM_CLIENT, noise := args.noise, peerAddress := args.peerAddress,
            relayAddress := args.relayAddress } } to_ none = Except.ok res) :
    (peerHandshake codec request target args to_ = Except.error badHandshakeReply ↔
      (decode codec.decodeHandshake res.value = none ∨
        ∃ hs, decode codec.decodeHandshake res.value = some hs ∧
          (hs.mode ≠ REPLY ∨ to_.host ≠ res.from_.host ∨ to_.port ≠ res.from_.port
            ∨ hs.noise = none))) ∧
    (∀ hs, decode codec.decodeHandshake res.value = some hs → res.from_ ≠ to_ →
      peerHandshake codec request target args to_ = Except.error badHandshakeReply) ∧
    (∀ hs, decode codec.decodeHandshake res.value = some hs → hs.mode = REPLY →
      to_.host = res.from_.host → to_.port = res.from_.port → hs.noise ≠ none →
      peerHandshake codec request target args to_ = Except.ok
        { noise := hs.noise
          relayed := hs.peerAddress.isSome
          serverAddress := match hs.peerAddress with
            | some a => a
            | none => to_
          clientAddress := res.to_ }) := by
  unfold peerHandshake
  simp only [hres]
  cases hdec : decode codec.decodeHandshake res.value with
  | none => simp
  | some hs =>
    refine ⟨?_, ?_, ?_⟩
    · by_cases hbad : hs.mode ≠ REPLY ∨ (to_.host ≠ res.from_.host ∨ to_.port ≠ res.from_.port)
          ∨ hs.noise = none
      · simp only [if_pos hbad]
        simp
        tauto
      · simp only [if_neg hbad]
        simp
        tauto
    · intro hs2 h2 hne
      cases h2
      have : to_.host ≠ res.from_.host ∨ to_.port ≠ res.from_.port := by
        by_contra hcon
        push_neg at hcon
        apply hne
        cases hf : res.from_
        cases ht : to_
        simp_all
      simp [this]
    · intro hs2 h2 hm hh hp hn
      cases h2
      simp [hm, hh, hp, hn]
      cases hs.peerAddress <;> rfl

/-- Witness of C1: a REPLY with noise that comes from the queried relay is
accepted, with the fields the claim lists. -/
theorem peerHandshake_reply_check_witness :
    respondWith goodHandshakeResponse
        { command := Command.PEER_HANDSHAKE, target := exTarget,
          value := plainCodec.encodeHandshake
            { mode := FROM_CLIENT, noise := exHandshakeArgs.noise,
              peerAddress := exHandshakeArgs.peerAddress,
              relayAddress := exHandshakeArgs.relayAddress } } relayAddr none
      = Except.ok goodHandshakeResponse ∧
    peerHandshake plainCodec (respondWith goodHandshakeResponse) exTarget exHandshakeArgs relayAddr
      = Except.ok
        { noise := some noiseB, relayed := true, serverAddress := serverAddr,
          clientAddress := observedAddr } :=
  ⟨rfl,
    (peerHandshake_reply_check plainCodec (respondWith goodHandshakeResponse) exTarget
      exHandshakeArgs relayAddr goodHandshakeResponse rfl).2.2
      { mode := REPLY, noise := some noiseB, peerAddress := some serverAddr,
        relayAddress := none } rfl rfl rfl rfl (by simp)⟩

/-! ## The registry -/

/-- Reading the durable store after a write. -/
theorem serverMap_set_apply {W : Type} (m : ServerMap W) (k : String) (v : State W)
    (j : String) : ServerMap.set m k v j = if j = k then some v else m j := rfl

/-- Reading the durable store after a removal. -/
theorem serverMap_delete_apply {W : Type} (m : ServerMap W) (k j : String) :
    ServerMap.delete m k j = if j = k then none else m j := rfl

/-- Reading the bounded store after a write. -/
theorem cache_set_apply {W : Type} (c : Cache W) (k : String) (v : State W)
    (evicted : String → Bool) (j : String) :
    Cache.set c k v evicted j = if evicted j then none else if j = k then some v else c j := rfl

/-- Reading the bounded store after a removal. -/
theorem cache_delete_apply {W : Type} (c : Cache W) (k j : String) :
    Cache.delete c k j = if j = k then none else c j := rfl

/-- Reading the bounded store after its age policy ran. -/
theorem cache_expire_apply {W : Type} (c : Cache W) (evicted : String → Bool) (j : String) :
    Cache.expire c evicted j = if evicted j then none else c j := rfl

/-- The two stores after `set` with a registration that has a handshake callback. -/
theorem set_server {W : Type} (r : Router W) (target : Target) (state : State W)
    (evicted : String → Bool) (h : state.onpeerhandshake.isSome = true) :
    set r target state evicted =
      { servers := r.servers.set (toString target) state,
        forwards := r.forwards.delete (toString target) } := by
  simp [set, h]

/-- The two stores after `set` with a registration that has no handshake callback. -/
theorem set_forward {W : Type} (r : Router W) (target : Target) (state : State W)
    (evicted : String → Bool) (h : state.onpeerhandshake.isSome = false) :
    set r target state evicted =
      { servers := r.servers.delete (toString target),
        forwards := r.forwards.set (toString target) state evicted } := by
  simp [set, h]

/-- Every entry of the bounded store of a reachable registry is a registration
without a handshake callback. -/
theorem forwards_hold_no_server {W : Type} (r : Router W) (hr : Reachable r) :
    ∀ k s, r.forwards k = some s → s.onpeerhandshake = none := by
  induction hr with
  | empty =>
    intro k s h
    simp [Router.empty] at h
  | set r target state evicted _ ih =>
    intro k s h
    cases hsrv : state.onpeerhandshake.isSome with
    | true =>
      rw [set_server r target state evicted hsrv] at h
      simp only [cache_delete_apply] at h
      by_cases hk : k = toString target
      · simp [hk] at h
      · rw [if_neg hk] at h
        exact ih k s h
    | false =>
      rw [set_forward r target state evicted hsrv] at h
      simp only [cache_set_apply] at h
      cases hev : evicted k with
      | true => simp [hev] at h
      | false =>
        by_cases hk : k = toString target
        · subst hk
          simp [hev] at h
          subst h
          simpa using hsrv
        · simp [hev, hk] at h
          exact ih k s h
  | delete r target _ ih =>
    intro k s h
    simp only [delete, cache_delete_apply] at h
    by_cases hk : k = toString target
    · simp [hk] at h
    · rw [if_neg hk] at h
      exact ih k s h
  | expire r evicted _ ih =>
    intro k s h
    simp only [expire, cache_expire_apply] at h
    cases hev : evicted k with
    | true => simp [hev] at h
    | false =>
      simp [hev] at h
      exact ih k s h

/-- C2: for every target and registration, (a) after `set` with a Server
registration (one that carries a handshake callback) `get` returns that
registration and the transient store holds nothing under the target's key,
whatever it held before; (b) after `set` with a Forward registration (no
handshake callback) the durable store holds nothing under the key, and `get`
returns the registration provided the bounded store kept the entry just
written. -/
theorem set_then_get {W : Type} (r : Router W) (target : Target) (state : State W)
    (evicted : String → Bool) :
    (state.onpeerhandshake ≠ none →
      get (set r target state evicted) target = some state ∧
      (set r target state evicted).forwards (toString target) = none) ∧
    (state.onpeerhandshake = none →
      (set r target state evicted).servers (toString target) = none ∧
      (evicted (toString target) = false →
        get (set r target state evicted) target = some state)) := by
  constructor
  · intro h
    have hsome : state.onpeerhandshake.isSome = true := by
      cases hcb : state.onpeerhandshake with
      | none => exact absurd hcb h
      | some f => rfl
    simp [set, get, hsome, ServerMap.set, Cache.delete]
  · intro h
    have hnone : state.onpeerhandshake.isSome = false := by simp [h]
    refine ⟨?_, ?_⟩
    · simp [set, hnone, ServerMap.delete]
    · intro hkept
      simp [set, get, hnone, ServerMap.delete, Cache.set, hkept]

/-- Witness of C2: a Server write over a Forward entry, and a Forward write over
a Server entry that the bounded store keeps. -/
theorem set_then_get_witness :
    (serverState.onpeerhandshake ≠ none ∧
      get (set (set Router.empty (Target.buf exTarget) forwardState evictNothing)
        (Target.buf exTarget) serverState evictEverything) (Target.buf exTarget)
          = some serverState ∧
      (set (set Router.empty (Target.buf exTarget) forwardState evictNothing)
        (Target.buf exTarget) serverState evictEverything).forwards
          (toString (Target.buf exTarget)) = none) ∧
    (forwardState.onpeerhandshake = none ∧
      (set exRegistry (Target.buf exTarget) forwardState evictNothing).servers
        (toString (Target.buf exTarget)) = none ∧
      evictNothing (toString (Target.buf exTarget)) = false ∧
      get (set exRegistry (Target.buf exTarget) forwardState evictNothing)
        (Target.buf exTarget) = some forwardState) :=
  ⟨⟨by simp [serverState],
      (set_then_get (set Router.empty (Target.buf exTarget) forwardState evictNothing)
        (Target.buf exTarget) serverState evictEverything).1 (by simp [serverState])⟩,
    ⟨rfl,
      ((set_then_get exRegistry (Target.buf exTarget) forwardState evictNothing).2 rfl).1,
      rfl,
      ((set_then_get exRegistry (Target.buf exTarget) forwardState evictNothing).2 rfl).2 rfl⟩⟩

/-- A registration with a handshake callback that `get` returns from a reachable
registry sits in the durable store. -/
theorem server_in_durable_store {W : Type} (r : Router W) (hr : Reachable r) (t : Target)
    (s : State W) (hget : get r t = some s) (hsrv : s.onpeerhandshake ≠ none) :
    r.servers (toString t) = some s := by
  unfold get at hget
  cases hdur : r.servers (toString t) with
  | some s2 =>
    simp only [hdur] at hget
    exact hget
  | none =>
    simp only [hdur] at hget
    exact absurd (forwards_hold_no_server r hr _ _ hget) hsrv

/-- What `get` returns when the durable store has an entry. -/
theorem get_of_durable {W : Type} (r : Router W) (t : Target) (s : State W)
    (h : r.servers (toString t) = some s) : get r t = some s := by
  simp [get, h]

/-- C10: in a registry reached from the empty one, if `get t` returns a Server
registration `s`, then after any `set` or `delete` on a target whose key differs
from the key of `t`, whatever the bounded store drops while doing so, and after
any eviction of the bounded store, `get t` still returns `s`. -/
theorem server_registration_kept {W : Type} (r : Router W) (hr : Reachable r) (t : Target)
    (s : State W) (hget : get r t = some s) (hsrv : s.onpeerhandshake ≠ none) :
    (∀ t2 state evicted, toString t2 ≠ toString t →
      get (set r t2 state evicted) t = some s) ∧
    (∀ t2, toString t2 ≠ toString t → get (delete r t2) t = some s) ∧
    (∀ evicted, get (expire r evicted) t = some s) := by
  have hdur := server_in_durable_store r hr t s hget hsrv
  refine ⟨?_, ?_, ?_⟩
  · intro t2 state evicted hne
    apply get_of_durable
    have hne2 : toString t ≠ toString t2 := fun h => hne h.symm
    cases hcb : state.onpeerhandshake.isSome with
    | true =>
      rw [set_server r t2 state evicted hcb]
      simp [serverMap_set_apply, hne2, hdur]
    | false =>
      rw [set_forward r t2 state evicted hcb]
      simp [serverMap_delete_apply, hne2, hdur]
  · intro t2 hne
    apply get_of_durable
    have hne2 : toString t ≠ toString t2 := fun h => hne h.symm
    simp [delete, serverMap_delete_apply, hne2, hdur]
  · intro evicted
    apply get_of_durable
    simp [expire, hdur]

/-- The example registry resolves `exTarget` to the Server registration. -/
theorem exRegistry_get : get exRegistry (Target.buf exTarget) = some serverState := by
  simp [exRegistry, set, get, serverState, forwardState, serverMap_set_apply,
    serverMap_delete_apply]

/-- The throwing registry resolves `exTarget` to the throwing registration. -/
theorem throwingRegistry_get :
    get throwingRegistry (Target.buf exTarget) = some throwingState := by
  simp [throwingRegistry, set, get, throwingState, serverMap_set_apply]

/-- Witness of C10: the Server registration of `exTarget` survives a Forward
write for another key during which the bounded store drops everything. -/
theorem server_registration_kept_witness :
    Reachable exRegistry ∧
    get exRegistry (Target.buf exTarget) = some serverState ∧
    serverState.onpeerhandshake ≠ none ∧
    toString (Target.str "ff") ≠ toString (Target.buf exTarget) ∧
    get (set exRegistry (Target.str "ff") forwardViaOther evictEverything) (Target.buf exTarget)
      = some serverState ∧
    get (delete exRegistry (Target.str "ff")) (Target.buf exTarget) = some serverState :=
  have hreach : Reachable exRegistry :=
    Reachable.set _ _ _ _ (Reachable.set _ _ _ _ Reachable.empty)
  have hget : get exRegistry (Target.buf exTarget) = some serverState := exRegistry_get
  have hsrv : serverState.onpeerhandshake ≠ none := by simp [serverState]
  have hkey : toString (Target.str "ff") ≠ toString (Target.buf exTarget) := by decide
  ⟨hreach, hget, hsrv, hkey,
    (server_registration_kept exRegistry hreach (Target.buf exTarget) serverState hget hsrv).1
      (Target.str "ff") forwardViaOther evictEverything hkey,
    (server_registration_kept exRegistry hreach (Target.buf exTarget) serverState hget
      hsrv).2.1 (Target.str "ff") hkey⟩

/-! ## Handshake dispatch -/

/-- The dispatcher's view of a target that `get` resolves. -/
theorem stateOf_of_get {W : Type} (r : Router W) (req : Req W) (t : Buffer) (s : State W)
    (ht : req.target = some t) (hget : get r (Target.buf t) = some s) :
    stateOf r req = some s := by
  simp [stateOf, ht, hget]

/-- C3: for an inbound handshake message with mode FROM_CLIENT and noise
present, whose target is registered as a Server whose handshake callback
returns a result with noise `X`, `onpeerhandshake` issues exactly one reply, to
the original requester, carrying mode REPLY, noise `X` and no peerAddress, sent
with the closer-node hints and the token disabled and with the socket of the
callback, and it issues no relay. -/
theorem server_replies_to_client {W : Type} (codec : Codec W)
    (safetyCatch : Err → Except Err Unit) (r : Router W) (req : Req W) (v : W)
    (hs : Handshake) (t : Buffer) (s : State W)
    (callback : HandshakePayload → Req W → Except Err (Option HandshakeReply))
    (noise X : Buffer) (reply : HandshakeReply)
    (hv : req.value = some v) (hdec : codec.decodeHandshake (some v) = Except.ok hs)
    (hmode : hs.mode = FROM_CLIENT) (hnoise : hs.noise = some noise)
    (ht : req.target = some t) (hget : get r (Target.buf t) = some s)
    (hcb : s.onpeerhandshake = some callback)
    (hret : callback { noise := some noise, peerAddress := hs.peerAddress } req
      = Except.ok (some reply))
    (hX : reply.noise = some X) :
    onpeerhandshake codec safetyCatch r req =
      { calls := [Call.handshake { noise := some noise, peerAddress := hs.peerAddress }]
        actions := [Action.reply
          (some (codec.encodeHandshake
            { mode := REPLY, noise := some X, peerAddress := none, relayAddress := none }))
          { socket := reply.socket, to_ := none, closerNodes := false, token := false }]
        raised := none } := by
  have hstate := stateOf_of_get r req t s ht hget
  simp [onpeerhandshake, hv, decode, hdec, hstate, hcb, hnoise, hret, hX, hmode]

/-- Witness of C3: the example Server answers a direct client handshake with
one REPLY that carries `noiseB`. -/
theorem server_replies_to_client_witness :
    get exRegistry (Target.buf exTarget) = some serverState ∧
    onpeerhandshake plainCodec safetyCatchPkg exRegistry directRequest =
      { calls := [Call.handshake { noise := some noiseA, peerAddress := none }]
        actions := [Action.reply
          (some (Sum.inl
            { mode := REPLY, noise := some noiseB, peerAddress := none, relayAddress := none }))
          { socket := some 7, to_ := none, closerNodes := false, token := false }]
        raised := none } :=
  ⟨exRegistry_get,
    server_replies_to_client plainCodec safetyCatchPkg exRegistry directRequest
      (Sum.inl
        { mode := FROM_CLIENT, noise := some noiseA, peerAddress := none, relayAddress := none })
      { mode := FROM_CLIENT, noise := some noiseA, peerAddress := none, relayAddress := none }
      exTarget serverState
      (fun _ _ => Except.ok (some { noise := some noiseB, socket := some 7 }))
      noiseA noiseB { noise := some noiseB, socket := some 7 }
      rfl rfl rfl rfl rfl exRegistry_get rfl rfl rfl⟩

/-- C5: for an inbound handshake message with mode FROM_CLIENT and noise
present, on a node that is not a Server for the target, when no relay is
remembered for the target and the message carries no relayAddress,
`onpeerhandshake` issues exactly one reply, with no payload and with the
closer-nodes hint enabled, and it issues no relay. -/
theorem relay_without_route_hints {W : Type} (codec : Codec W)
    (safetyCatch : Err → Except Err Unit) (r : Router W) (req : Req W) (v : W)
    (hs : Handshake) (noise : Buffer)
    (hv : req.value = some v) (hdec : codec.decodeHandshake (some v) = Except.ok hs)
    (hmode : hs.mode = FROM_CLIENT) (hnoise : hs.noise = some noise)
    (hsrv : isServer r req = false) (hrelay : relayOf r req = none)
    (hexplicit : hs.relayAddress = none) :
    onpeerhandshake codec safetyCatch r req =
      { calls := []
        actions := [Action.reply none
          { socket := none, to_ := none, closerNodes := true, token := false }]
        raised := none } := by
  have hcb : ((stateOf r req).bind fun s => s.onpeerhandshake) = none := by
    simpa [isServer] using hsrv
  have hrl : ((stateOf r req).bind fun s => s.relay) = none := hrelay
  simp [onpeerhandshake, hv, decode, hdec, hcb, hrl, hnoise, hmode, hexplicit]

/-- Witness of C5: a node with an empty registry answers a direct client
handshake with the closer-nodes hint. -/
theorem relay_without_route_hints_witness :
    isServer (Router.empty : Router PlainWire) directRequest = false ∧
    relayOf (Router.empty : Router PlainWire) directRequest = none ∧
    onpeerhandshake plainCodec safetyCatchPkg Router.empty directRequest =
      { calls := []
        actions := [Action.reply none
          { socket := none, to_ := none, closerNodes := true, token := false }]
        raised := none } :=
  ⟨rfl, rfl,
    relay_without_route_hints plainCodec safetyCatchPkg Router.empty directRequest
      (Sum.inl
        { mode := FROM_CLIENT, noise := some noiseA, peerAddress := none, relayAddress := none })
      { mode := FROM_CLIENT, noise := some noiseA, peerAddress := none, relayAddress := none }
      noiseA rfl rfl rfl rfl rfl rfl rfl⟩

/-- C6: for an inbound handshake message with mode FROM_RELAY on a node that is
not a Server for the target: if a relay is remembered for the target and noise
is present, `onpeerhandshake` issues exactly one relay, addressed to the
remembered relay, carrying mode FROM_SECOND_RELAY, the inbound noise, the
inbound peerAddress and the address of the immediate sender as relayAddress,
and no reply; if the remembered relay or the noise is absent it issues
nothing. -/
theorem second_relay_hop {W : Type} (codec : Codec W)
    (safetyCatch : Err → Except Err Unit) (r : Router W) (req : Req W) (v : W)
    (hs : Handshake)
    (hv : req.value = some v) (hdec : codec.decodeHandshake (some v) = Except.ok hs)
    (hmode : hs.mode = FROM_RELAY) (hsrv : isServer r req = false) :
    (∀ remembered noise, relayOf r req = some remembered → hs.noise = some noise →
      onpeerhandshake codec safetyCatch r req =
        { calls := []
          actions := [Action.relay
            (codec.encodeHandshake
              { mode := FROM_SECOND_RELAY, noise := some noise, peerAddress := hs.peerAddress,
                relayAddress := some req.from_ })
            remembered none]
          raised := none }) ∧
    (relayOf r req = none ∨ hs.noise = none →
      onpeerhandshake codec safetyCatch r req = { calls := [], actions := [], raised := none }) := by
  have hcb : ((stateOf r req).bind fun s => s.onpeerhandshake) = none := by
    simpa [isServer] using hsrv
  have hne : ¬ (FROM_RELAY = FROM_CLIENT) := by decide
  constructor
  · intro remembered noise hrelay hnoise
    have hrl : ((stateOf r req).bind fun s => s.relay) = some remembered := hrelay
    simp [onpeerhandshake, hv, decode, hdec, hcb, hrl, hnoise, hmode, hne]
  · intro habs
    cases hrl : ((stateOf r req).bind fun s => s.relay) with
    | none =>
      simp [onpeerhandshake, hv, decode, hdec, hcb, hrl, hmode, hne, Outcome.dropped]
    | some remembered =>
      have hnoise : hs.noise = none := by
        cases habs with
        | inl h =>
          have h2 : ((stateOf r req).bind fun s => s.relay) = none := h
          rw [hrl] at h2
          cases h2
        | inr h => exact h
      simp [onpeerhandshake, hv, decode, hdec, hcb, hrl, hnoise, hmode, hne, Outcome.dropped]

/-- Witness of C6: a node that remembers `otherAddr` for the target forwards a
FROM_RELAY message there as FROM_SECOND_RELAY, with the sender as relayAddress;
a node that remembers nothing drops the same message. -/
theorem second_relay_hop_witness :
    isServer relayRegistry relayedRequest = false ∧
    relayOf relayRegistry relayedRequest = some otherAddr ∧
    onpeerhandshake plainCodec safetyCatchPkg relayRegistry relayedRequest =
      { calls := []
        actions := [Action.relay
          (Sum.inl
            { mode := FROM_SECOND_RELAY, noise := some noiseA, peerAddress := some clientAddr,
              relayAddress := some relayAddr })
          otherAddr none]
        raised := none } ∧
    relayOf (Router.empty : Router PlainWire) relayedRequest = none ∧
    onpeerhandshake plainCodec safetyCatchPkg Router.empty relayedRequest =
      { calls := [], actions := [], raised := none } :=
  have hsrv : isServer relayRegistry relayedRequest = false := by
    simp [isServer, stateOf, relayedRequest, relayRegistry, set, get, forwardViaOther,
      serverMap_delete_apply, cache_set_apply, evictNothing]
  have hrelay : relayOf relayRegistry relayedRequest = some otherAddr := by
    simp [relayOf, stateOf, relayedRequest, relayRegistry, set, get, forwardViaOther,
      serverMap_delete_apply, cache_set_apply, evictNothing]
  ⟨hsrv, hrelay,
    (second_relay_hop plainCodec safetyCatchPkg relayRegistry relayedRequest
      (Sum.inl
        { mode := FROM_RELAY, noise := some noiseA, peerAddress := some clientAddr,
          relayAddress := none })
      { mode := FROM_RELAY, noise := some noiseA, peerAddress := some clientAddr,
        relayAddress := none }
      rfl rfl rfl hsrv).1 otherAddr noiseA hrelay rfl,
    rfl,
    (second_relay_hop plainCodec safetyCatchPkg Router.empty relayedRequest
      (Sum.inl
        { mode := FROM_RELAY, noise := some noiseA, peerAddress := some clientAddr,
          relayAddress := none })
      { mode := FROM_RELAY, noise := some noiseA, peerAddress := some clientAddr,
        relayAddress := none }
      rfl rfl rfl rfl).2 (Or.inl rfl)⟩

/-! ## The callback boundary -/

/-- Counterexample to C4: with the published `safetyCatch`, a Server whose
handshake callback throws a `TypeError` makes `onpeerhandshake` raise that
value (nothing is sent), and likewise `onpeerholepunch` for the holepunch
callback. -/
theorem callback_throw_propagates :
    onpeerhandshake plainCodec safetyCatchPkg throwingRegistry directRequest =
      { calls := [Call.handshake { noise := some noiseA, peerAddress := none }]
        actions := []
        raised := some callbackTypeError } ∧
    onpeerholepunch plainCodec safetyCatchPkg throwingRegistry relayedPunch =
      { calls := [Call.holepunch
          { id := 5, payload := some [1, 2], peerAddress := some clientAddr }]
        actions := []
        raised := some callbackTypeError } := by
  have hstate1 : stateOf throwingRegistry directRequest = some throwingState :=
    stateOf_of_get _ _ exTarget _ rfl throwingRegistry_get
  have hstate2 : stateOf throwingRegistry relayedPunch = some throwingState :=
    stateOf_of_get _ _ exTarget _ rfl throwingRegistry_get
  constructor
  · simp only [onpeerhandshake, hstate1]
    rfl
  · simp only [onpeerholepunch, hstate2]
    rfl

/-- C4, amended: on a Server, for an inbound handshake message of any mode with
noise present, if the handshake callback throws `e` then `onpeerhandshake`
sends nothing, completes without raising when `safetyCatch e` returns, and
raises what `safetyCatch e` raises otherwise; if the callback returns nothing
or a result without noise, it sends nothing and does not raise. Likewise, for
an inbound holepunch message with mode FROM_RELAY and peerAddress present, if
the holepunch callback throws `e` then `onpeerholepunch` sends nothing and
raises exactly what `safetyCatch e` raises; if the callback returns nothing it
sends nothing and does not raise. -/
theorem callback_failure_sends_nothing {W : Type} (codec : Codec W)
    (safetyCatch : Err → Except Err Unit) (r : Router W) (req : Req W) (v : W) (t : Buffer)
    (s : State W) (hv : req.value = some v) (ht : req.target = some t)
    (hget : get r (Target.buf t) = some s) :
    (∀ hs callback noise, codec.decodeHandshake (some v) = Except.ok hs →
      hs.noise = some noise → s.onpeerhandshake = some callback →
      (∀ e, callback { noise := some noise, peerAddress := hs.peerAddress } req = Except.error e →
        (safetyCatch e = Except.ok () →
          onpeerhandshake codec safetyCatch r req =
            { calls := [Call.handshake { noise := some noise, peerAddress := hs.peerAddress }]
              actions := [], raised := none }) ∧
        (∀ e2, safetyCatch e = Except.error e2 →
          onpeerhandshake codec safetyCatch r req =
            { calls := [Call.handshake { noise := some noise, peerAddress := hs.peerAddress }]
              actions := [], raised := some e2 })) ∧
      (callback { noise := some noise, peerAddress := hs.peerAddress } req = Except.ok none →
        onpeerhandshake codec safetyCatch r req =
          { calls := [Call.handshake { noise := some noise, peerAddress := hs.peerAddress }]
            actions := [], raised := none }) ∧
      (∀ reply, callback { noise := some noise, peerAddress := hs.peerAddress } req
          = Except.ok (some reply) → reply.noise = none →
        onpeerhandshake codec safetyCatch r req =
          { calls := [Call.handshake { noise := some noise, peerAddress := hs.peerAddress }]
            actions := [], raised := none })) ∧
    (∀ hp callback peerAddress, codec.decodeHolepunch (some v) = Except.ok hp →
      hp.mode = FROM_RELAY → hp.peerAddress = some peerAddress →
      s.onpeerholepunch = some callback →
      (∀ e, callback { id := hp.id, payload := hp.payload, peerAddress := some peerAddress } req
          = Except.error e →
        (safetyCatch e = Except.ok () →
          onpeerholepunch codec safetyCatch r req =
            { calls := [Call.holepunch
                { id := hp.id, payload := hp.payload, peerAddress := some peerAddress }]
              actions := [], raised := none }) ∧
        (∀ e2, safetyCatch e = Except.error e2 →
          onpeerholepunch codec safetyCatch r req =
            { calls := [Call.holepunch
                { id := hp.id, payload := hp.payload, peerAddress := some peerAddress }]
              actions := [], raised := some e2 })) ∧
      (callback { id := hp.id, payload := hp.payload, peerAddress := some peerAddress } req
          = Except.ok none →
        onpeerholepunch codec safetyCatch r req =
          { calls := [Call.holepunch
              { id := hp.id, payload := hp.payload, peerAddress := some peerAddress }]
            actions := [], raised := none })) := by
  have hstate := stateOf_of_get r req t s ht hget
  have hne : ¬ (FROM_RELAY = FROM_CLIENT) := by decide
  constructor
  · intro hs callback noise hdec hnoise hcb
    refine ⟨?_, ?_, ?_⟩
    · intro e hthrow
      constructor
      · intro hquiet
        simp [onpeerhandshake, hv, decode, hdec, hstate, hcb, hnoise, hthrow, caught, hquiet]
      · intro e2 hloud
        simp [onpeerhandshake, hv, decode, hdec, hstate, hcb, hnoise, hthrow, caught, hloud]
    · intro hret
      simp [onpeerhandshake, hv, decode, hdec, hstate, hcb, hnoise, hret]
    · intro reply hret hnone
      simp [onpeerhandshake, hv, decode, hdec, hstate, hcb, hnoise, hret, hnone]
  · intro hp callback peerAddress hdec hmode hpeer hcb
    refine ⟨?_, ?_⟩
    · intro e hthrow
      constructor
      · intro hquiet
        simp [onpeerholepunch, hv, decode, hdec, hstate, hcb, hpeer, hmode, hne, hthrow,
          caught, hquiet]
      · intro e2 hloud
        simp [onpeerholepunch, hv, decode, hdec, hstate, hcb, hpeer, hmode, hne, hthrow,
          caught, hloud]
    · intro hret
      simp [onpeerholepunch, hv, decode, hdec, hstate, hcb, hpeer, hmode, hne, hret]

/-- The failing registry resolves `exTarget` to the failing registration. -/
theorem failingRegistry_get :
    get failingRegistry (Target.buf exTarget) = some failingState := by
  simp [failingRegistry, set, get, failingState, serverMap_set_apply]

/-- Witness of C4, amended: a callback that throws a plain `Error` is swallowed by
the published `safetyCatch`, for the handshake and for the holepunch. -/
theorem callback_failure_sends_nothing_witness :
    get failingRegistry (Target.buf exTarget) = some failingState ∧
    safetyCatchPkg callbackFailure = Except.ok () ∧
    onpeerhandshake plainCodec safetyCatchPkg failingRegistry directRequest =
      { calls := [Call.handshake { noise := some noiseA, peerAddress := none }]
        actions := [], raised := none } ∧
    onpeerholepunch plainCodec safetyCatchPkg failingRegistry relayedPunch =
      { calls := [Call.holepunch
          { id := 5, payload := some [1, 2], peerAddress := some clientAddr }]
        actions := [], raised := none } :=
  ⟨failingRegistry_get, rfl,
    (((callback_failure_sends_nothing plainCodec safetyCatchPkg failingRegistry directRequest
      (Sum.inl
        { mode := FROM_CLIENT, noise := some noiseA, peerAddress := none, relayAddress := none })
      exTarget failingState rfl rfl failingRegistry_get).1
      { mode := FROM_CLIENT, noise := some noiseA, peerAddress := none, relayAddress := none }
      (fun _ _ => Except.error callbackFailure) noiseA rfl rfl rfl).1
      callbackFailure rfl).1 rfl,
    (((callback_failure_sends_nothing plainCodec safetyCatchPkg failingRegistry relayedPunch
      (Sum.inr
        { mode := FROM_RELAY, id := 5, payload := some [1, 2], peerAddress := some clientAddr })
      exTarget failingState rfl rfl failingRegistry_get).2
      { mode := FROM_RELAY, id := 5, payload := some [1, 2], peerAddress := some clientAddr }
      (fun _ _ => Except.error callbackFailure) clientAddr rfl rfl rfl rfl).1
      callbackFailure rfl).1 rfl⟩

/-! ## Malformed input -/

/-- C9: for every registry and every inbound request whose value is absent or
does not decode as a handshake record, `onpeerhandshake` invokes no callback,
issues no reply and no relay, and does not raise; and the same holds for
`onpeerholepunch` when the value is absent or does not decode as a holepunch
record. -/
theorem malformed_is_dropped {W : Type} (codec : Codec W)
    (safetyCatch : Err → Except Err Unit) (r : Router W) (req : Req W) :
    (req.value = none ∨ (∃ e, codec.decodeHandshake req.value = Except.error e) →
      onpeerhandshake codec safetyCatch r req = { calls := [], actions := [], raised := none }) ∧
    (req.value = none ∨ (∃ e, codec.decodeHolepunch req.value = Except.error e) →
      onpeerholepunch codec safetyCatch r req = { calls := [], actions := [], raised := none }) := by
  constructor
  · intro h
    cases hv : req.value with
    | none => simp [onpeerhandshake, hv, Outcome.dropped]
    | some v =>
      rcases h with h | ⟨e, he⟩
      · rw [hv] at h
        cases h
      · rw [hv] at he
        simp [onpeerhandshake, hv, decode, he, Outcome.dropped]
  · intro h
    cases hv : req.value with
    | none => simp [onpeerholepunch, hv, Outcome.dropped]
    | some v =>
      rcases h with h | ⟨e, he⟩
      · rw [hv] at h
        cases h
      · rw [hv] at he
        simp [onpeerholepunch, hv, decode, he, Outcome.dropped]

/-- Witness of C9: on the example Server, a request without a value and a
request whose value has the wrong shape are dropped by both dispatchers. -/
theorem malformed_is_dropped_witness :
    emptyRequest.value = none ∧
    plainCodec.decodeHandshake wrongShapeRequest.value = Except.error decodeFailure ∧
    plainCodec.decodeHolepunch directRequest.value = Except.error decodeFailure ∧
    onpeerhandshake plainCodec safetyCatchPkg exRegistry emptyRequest
      = { calls := [], actions := [], raised := none } ∧
    onpeerhandshake plainCodec safetyCatchPkg exRegistry wrongShapeRequest
      = { calls := [], actions := [], raised := none } ∧
    onpeerholepunch plainCodec safetyCatchPkg exRegistry directRequest
      = { calls := [], actions := [], raised := none } :=
  ⟨rfl, rfl, rfl,
    (malformed_is_dropped plainCodec safetyCatchPkg exRegistry emptyRequest).1 (Or.inl rfl),
    (malformed_is_dropped plainCodec safetyCatchPkg exRegistry wrongShapeRequest).1
      (Or.inr ⟨decodeFailure, rfl⟩),
    (malformed_is_dropped plainCodec safetyCatchPkg exRegistry directRequest).2
      (Or.inr ⟨decodeFailure, rfl⟩)⟩

/-! ## Initiator side: holepunch -/

/-- C8: for every transport response `res`, `peerHolepunch` fails with the
bad-reply error exactly when `res.value` does not decode as a holepunch record,
or the decoded mode is not REPLY, or `res.from` differs from `to` in host or
port; no other field is required; a reply from another address is rejected; and
in every other case the call returns `res.from`, `res.to`, the decoded payload
and the decoded peerAddress. -/
theorem peerHolepunch_reply_check {W : Type} (codec : Codec W) (request : Request W)
    (target : Buffer) (args : HolepunchArgs) (to_ : Endpoint) (res : Response W)
    (hres : request
      { command := Command.PEER_HOLEPUNCH, target := target,
        value := codec.encodeHolepunch
          { mode := FROM_CLIENT, id := args.id, payload := args.payload,
            peerAddress := args.peerAddress } } to_ (some args.socket) = Except.ok res) :
    (peerHolepunch codec request target args to_ = Except.error badHolepunchReply ↔
      (decode codec.decodeHolepunch res.value = none ∨
        ∃ hp, decode codec.decodeHolepunch res.value = some hp ∧
          (hp.mode ≠ REPLY ∨ to_.host ≠ res.from_.host ∨ to_.port ≠ res.from_.port))) ∧
    (∀ hp, decode codec.decodeHolepunch res.value = some hp → res.from_ ≠ to_ →
      peerHolepunch codec request target args to_ = Except.error badHolepunchReply) ∧
    (∀ hp, decode codec.decodeHolepunch res.value = some hp → hp.mode = REPLY →
      to_.host = res.from_.host → to_.port = res.from_.port →
      peerHolepunch codec request target args to_ = Except.ok
        { from_ := res.from_, to_ := res.to_, payload := hp.payload,
          peerAddress := hp.peerAddress }) := by
  unfold peerHolepunch
  simp only [hres]
  cases hdec : decode codec.decodeHolepunch res.value with
  | none => simp
  | some hp =>
    refine ⟨?_, ?_, ?_⟩
    · by_cases hbad : hp.mode ≠ REPLY ∨ (to_.host ≠ res.from_.host ∨ to_.port ≠ res.from_.port)
      · simp only [if_pos hbad]
        simp
        tauto
      · simp only [if_neg hbad]
        simp
        tauto
    · intro hp2 h2 hne
      cases h2
      have : to_.host ≠ res.from_.host ∨ to_.port ≠ res.from_.port := by
        by_contra hcon
        push_neg at hcon
        apply hne
        cases hf : res.from_
        cases ht : to_
        simp_all
      simp [this]
    · intro hp2 h2 hm hh hp
      cases h2
      simp [hm, hh, hp]

/-- Witness of C8: a REPLY without payload that comes from the queried relay is
accepted. -/
theorem peerHolepunch_reply_check_witness :
    respondWith goodHolepunchResponse
        { command := Command.PEER_HOLEPUNCH, target := exTarget,
          value := plainCodec.encodeHolepunch
            { mode := FROM_CLIENT, id := exHolepunchArgs.id, payload := exHolepunchArgs.payload,
              peerAddress := exHolepunchArgs.peerAddress } } relayAddr
        (some exHolepunchArgs.socket)
      = Except.ok goodHolepunchResponse ∧
    peerHolepunch plainCodec (respondWith goodHolepunchResponse) exTarget exHolepunchArgs relayAddr
      = Except.ok
        { from_ := relayAddr, to_ := observedAddr, payload := none,
          peerAddress := some serverAddr } :=
  ⟨rfl,
    (peerHolepunch_reply_check plainCodec (respondWith goodHolepunchResponse) exTarget
      exHolepunchArgs relayAddr goodHolepunchResponse rfl).2.2
      { mode := REPLY, id := 0, payload := none, peerAddress := some serverAddr }
      rfl rfl rfl rfl⟩

/-! ## The single-relay handshake, end to end -/

/-- The relay of the scenario resolves `exTarget` to the Forward entry. -/
theorem relayNodeRegistry_get :
    get relayNodeRegistry (Target.buf exTarget) = some forwardState := by
  simp [relayNodeRegistry, set, get, forwardState, serverMap_delete_apply, cache_set_apply,
    evictNothing]

/-- C7, amended: let the client (seen as `client`) call `peerHandshake` for
target `T` toward the relay at `relay` with noise `A` and explicit relayAddress
`server`; the relay holds for `T` a Forward registration (with a remembered
relay or, as in the scenario, without), the server holds for `T` a Server
registration whose handshake callback returns noise `B`, each of the four
messages of the scenario is decoded by its receiver to the record that was
encoded, and every message is seen by its receiver as sent from the node that
issued it. Then the relay relays FROM_RELAY with noise `A` and peerAddress
`client` to the server; the server relays FROM_SERVER with noise `B` and
peerAddress `client` back to the relay; the relay replies to `client` with
REPLY, noise `B` and peerAddress `server` (the sender of the FROM_SERVER
message); and `peerHandshake` resolves with noise `B`, `relayed` true,
`serverAddress` equal to `server`, and `clientAddress` the observed address of
the client. -/
theorem single_relay_handshake {W : Type} (codec : Codec W)
    (safetyCatch : Err → Except Err Unit) (routerR routerS : Router W)
    (client observed relay server : Endpoint) (T A B : Buffer) (args : HandshakeArgs)
    (sR sS : State W)
    (callback : HandshakePayload → Req W → Except Err (Option HandshakeReply))
    (socket : Option Socket)
    (hwire0 : codec.decodeHandshake (some (codec.encodeHandshake
        { mode := FROM_CLIENT, noise := some A, peerAddress := args.peerAddress,
          relayAddress := some server }))
      = Except.ok
        { mode := FROM_CLIENT, noise := some A, peerAddress := args.peerAddress,
          relayAddress := some server })
    (hwire1 : codec.decodeHandshake (some (codec.encodeHandshake
        { mode := FROM_RELAY, noise := some A, peerAddress := some client,
          relayAddress := none }))
      = Except.ok
        { mode := FROM_RELAY, noise := some A, peerAddress := some client,
          relayAddress := none })
    (hwire2 : codec.decodeHandshake (some (codec.encodeHandshake
        { mode := FROM_SERVER, noise := some B, peerAddress := some client,
          relayAddress := none }))
      = Except.ok
        { mode := FROM_SERVER, noise := some B, peerAddress := some client,
          relayAddress := none })
    (hwire3 : codec.decodeHandshake (some (codec.encodeHandshake
        { mode := REPLY, noise := some B, peerAddress := some server,
          relayAddress := none }))
      = Except.ok
        { mode := REPLY, noise := some B, peerAddress := some server,
          relayAddress := none })
    (hnoise : args.noise = some A) (hexplicit : args.relayAddress = some server)
    (hR : get routerR (Target.buf T) = some sR) (hRfwd : sR.onpeerhandshake = none)
    (hS : get routerS (Target.buf T) = some sS) (hScb : sS.onpeerhandshake = some callback)
    (hB : ∀ payload req, callback payload req
      = Except.ok (some { noise := some B, socket := socket })) :
    onpeerhandshake codec safetyCatch routerR
        { target := some T
          value := some (codec.encodeHandshake
            { mode := FROM_CLIENT, noise := some A, peerAddress := args.peerAddress,
              relayAddress := some server })
          from_ := client, to_ := relay }
      = { calls := []
          actions := [Action.relay
            (codec.encodeHandshake
              { mode := FROM_RELAY, noise := some A, peerAddress := some client,
                relayAddress := none })
            server none]
          raised := none } ∧
    onpeerhandshake codec safetyCatch routerS
        { target := some T
          value := some (codec.encodeHandshake
            { mode := FROM_RELAY, noise := some A, peerAddress := some client,
              relayAddress := none })
          from_ := relay, to_ := server }
      = { calls := [Call.handshake { noise := some A, peerAddress := some client }]
          actions := [Action.relay
            (codec.encodeHandshake
              { mode := FROM_SERVER, noise := some B, peerAddress := some client,
                relayAddress := none })
            relay
            (some { socket := socket, to_ := none, closerNodes := false, token := false })]
          raised := none } ∧
    onpeerhandshake codec safetyCatch routerR
        { target := some T
          value := some (codec.encodeHandshake
            { mode := FROM_SERVER, noise := some B, peerAddress := some client,
              relayAddress := none })
          from_ := server, to_ := relay }
      = { calls := []
          actions := [Action.reply
            (some (codec.encodeHandshake
              { mode := REPLY, noise := some B, peerAddress := some server,
                relayAddress := none }))
            { socket := none, to_ := some client, closerNodes := false, token := false }]
          raised := none } ∧
    peerHandshake codec
        (singleRelayRequest codec safetyCatch routerR routerS client observed relay server)
        T args relay
      = Except.ok
        { noise := some B, relayed := true, serverAddress := server,
          clientAddress := observed } := by
  have hne1 : ¬ (FROM_RELAY = FROM_CLIENT) := by decide
  have hne2 : ¬ (FROM_SERVER = FROM_CLIENT) := by decide
  have hne3 : ¬ (FROM_SERVER = FROM_RELAY) := by decide
  have h1 : onpeerhandshake codec safetyCatch routerR
        { target := some T
          value := some (codec.encodeHandshake
            { mode := FROM_CLIENT, noise := some A, peerAddress := args.peerAddress,
              relayAddress := some server })
          from_ := client, to_ := relay }
      = { calls := []
          actions := [Action.relay
            (codec.encodeHandshake
              { mode := FROM_RELAY, noise := some A, peerAddress := some client,
                relayAddress := none })
            server none]
          raised := none } := by
    simp [onpeerhandshake, decode, hwire0, stateOf, hR, hRfwd]
  have h2 : onpeerhandshake codec safetyCatch routerS
        { target := some T
          value := some (codec.encodeHandshake
            { mode := FROM_RELAY, noise := some A, peerAddress := some client,
              relayAddress := none })
          from_ := relay, to_ := server }
      = { calls := [Call.handshake { noise := some A, peerAddress := some client }]
          actions := [Action.relay
            (codec.encodeHandshake
              { mode := FROM_SERVER, noise := some B, peerAddress := some client,
                relayAddress := none })
            relay
            (some { socket := socket, to_ := none, closerNodes := false, token := false })]
          raised := none } := by
    simp [onpeerhandshake, decode, hwire1, stateOf, hS, hScb, hB, hne1]
  have h3 : onpeerhandshake codec safetyCatch routerR
        { target := some T
          value := some (codec.encodeHandshake
            { mode := FROM_SERVER, noise := some B, peerAddress := some client,
              relayAddress := none })
          from_ := server, to_ := relay }
      = { calls := []
          actions := [Action.reply
            (some (codec.encodeHandshake
              { mode := REPLY, noise := some B, peerAddress := some server,
                relayAddress := none }))
            { socket := none, to_ := some client, closerNodes := false, token := false }]
          raised := none } := by
    simp [onpeerhandshake, decode, hwire2, stateOf, hR, hRfwd, hne2, hne3]
  refine ⟨h1, h2, h3, ?_⟩
  simp only [peerHandshake, singleRelayRequest, hnoise, hexplicit, h1, h2, h3]
  simp [decode, hwire3]

/-- Witness of C7, amended: the scenario with the example relay and the example
Server, over a codec that reads an empty noise back as absent; the four
messages carry `noiseA` or `noiseB` and are decoded as encoded, and the client
learns the address of the server. -/
theorem single_relay_handshake_witness :
    get relayNodeRegistry (Target.buf exTarget) = some forwardState ∧
    get exRegistry (Target.buf exTarget) = some serverState ∧
    lossyCodec.decodeHandshake (some (lossyCodec.encodeHandshake
        { mode := REPLY, noise := some noiseB, peerAddress := some serverAddr,
          relayAddress := none }))
      = Except.ok
        { mode := REPLY, noise := some noiseB, peerAddress := some serverAddr,
          relayAddress := none } ∧
    onpeerhandshake lossyCodec safetyCatchPkg relayNodeRegistry
        { target := some exTarget
          value := some (Sum.inl
            { mode := FROM_SERVER, noise := some noiseB, peerAddress := some clientAddr,
              relayAddress := none })
          from_ := serverAddr, to_ := relayAddr }
      = { calls := []
          actions := [Action.reply
            (some (Sum.inl
              { mode := REPLY, noise := some noiseB, peerAddress := some serverAddr,
                relayAddress := none }))
            { socket := none, to_ := some clientAddr, closerNodes := false, token := false }]
          raised := none } ∧
    peerHandshake lossyCodec
        (singleRelayRequest lossyCodec safetyCatchPkg relayNodeRegistry exRegistry clientAddr
          observedAddr relayAddr serverAddr)
        exTarget exHandshakeArgs relayAddr
      = Except.ok
        { noise := some noiseB, relayed := true, serverAddress := serverAddr,
          clientAddress := observedAddr } :=
  ⟨relayNodeRegistry_get, exRegistry_get, rfl,
    (single_relay_handshake lossyCodec safetyCatchPkg relayNodeRegistry exRegistry clientAddr
      observedAddr relayAddr serverAddr exTarget noiseA noiseB exHandshakeArgs forwardState
      serverState (fun _ _ => Except.ok (some { noise := some noiseB, socket := some 7 }))
      (some 7) rfl rfl rfl rfl rfl rfl relayNodeRegistry_get rfl exRegistry_get rfl
      (fun _ _ => rfl)).2.2.1,
    (single_relay_handshake lossyCodec safetyCatchPkg relayNodeRegistry exRegistry clientAddr
      observedAddr relayAddr serverAddr exTarget noiseA noiseB exHandshakeArgs forwardState
      serverState (fun _ _ => Except.ok (some { noise := some noiseB, socket := some 7 }))
      (some 7) rfl rfl rfl rfl rfl rfl relayNodeRegistry_get rfl exRegistry_get rfl
      (fun _ _ => rfl)).2.2.2⟩

/-- Counterexample to C7: in the scenario with the example relay and Server, the
REPLY the relay sends to the client carries the address of the server as
peerAddress, not the address of the relay, and `peerHandshake` resolves with
`serverAddress` equal to the address of the server, not to that of the relay. -/
theorem single_relay_reply_names_server :
    (onpeerhandshake plainCodec safetyCatchPkg relayNodeRegistry
        { target := some exTarget
          value := some (Sum.inl
            { mode := FROM_SERVER, noise := some noiseB, peerAddress := some clientAddr,
              relayAddress := none })
          from_ := serverAddr, to_ := relayAddr }).actions
      ≠ [Action.reply
          (some (Sum.inl
            { mode := REPLY, noise := some noiseB, peerAddress := some relayAddr,
              relayAddress := none }))
          { socket := none, to_ := some clientAddr, closerNodes := false, token := false }] ∧
    peerHandshake plainCodec
        (singleRelayRequest plainCodec safetyCatchPkg relayNodeRegistry exRegistry clientAddr
          observedAddr relayAddr serverAddr)
        exTarget exHandshakeArgs relayAddr
      = Except.ok
        { noise := some noiseB, relayed := true, serverAddress := serverAddr,
          clientAddress := observedAddr } ∧
    peerHandshake plainCodec
        (singleRelayRequest plainCodec safetyCatchPkg relayNodeRegistry exRegistry clientAddr
          observedAddr relayAddr serverAddr)
        exTarget exHandshakeArgs relayAddr
      ≠ Except.ok
        { noise := some noiseB, relayed := true, serverAddress := relayAddr,
          clientAddress := observedAddr } := by
  have hres : peerHandshake plainCodec
        (singleRelayRequest plainCodec safetyCatchPkg relayNodeRegistry exRegistry clientAddr
          observedAddr relayAddr serverAddr)
        exTarget exHandshakeArgs relayAddr
      = Except.ok
        { noise := some noiseB, relayed := true, serverAddress := serverAddr,
          clientAddress := observedAddr } := by
    rfl
  refine ⟨?_, hres, ?_⟩
  · decide
  · rw [hres]
    intro h
    injection h with h
    injection h with _ _ h _
    exact absurd h (by decide)

/-! ## The registry: one registration per key -/

/-- C11: starting from the empty registry, after every finite sequence of `set`
and `delete` calls (and of evictions of the bounded store), no key is present
in both the durable store and the transient store; and right after
`delete target` neither store holds the key of the target, so `get target`
returns nothing. -/
theorem registry_exclusive {W : Type} (r : Router W) (hr : Reachable r) :
    (∀ k, r.servers k = none ∨ r.forwards k = none) ∧
    (∀ target, (delete r target).servers (toString target) = none ∧
      (delete r target).forwards (toString target) = none ∧
      get (delete r target) target = none) := by
  constructor
  · induction hr with
    | empty =>
      intro k
      exact Or.inl rfl
    | set r target state evicted _ ih =>
      intro k
      cases hsrv : state.onpeerhandshake.isSome with
      | true =>
        rw [set_server r target state evicted hsrv]
        by_cases hk : k = toString target
        · right
          simp [cache_delete_apply, hk]
        · rcases ih k with h | h
          · left
            simp [serverMap_set_apply, hk, h]
          · right
            simp [cache_delete_apply, hk, h]
      | false =>
        rw [set_forward r target state evicted hsrv]
        by_cases hk : k = toString target
        · left
          simp [serverMap_delete_apply, hk]
        · rcases ih k with h | h
          · left
            simp [serverMap_delete_apply, hk, h]
          · right
            simp [cache_set_apply, hk, h]
    | delete r target _ ih =>
      intro k
      by_cases hk : k = toString target
      · left
        simp [delete, serverMap_delete_apply, hk]
      · rcases ih k with h | h
        · left
          simp [delete, serverMap_delete_apply, hk, h]
        · right
          simp [delete, cache_delete_apply, hk, h]
    | expire r evicted _ ih =>
      intro k
      rcases ih k with h | h
      · left
        simpa [expire] using h
      · right
        simp [expire, cache_expire_apply, h]
  · intro target
    simp [delete, get, serverMap_delete_apply, cache_delete_apply]

/-- Witness of C11: the example registry, reached by two writes, keeps its two
stores apart, and `delete` removes the Server registration of `exTarget`. -/
theorem registry_exclusive_witness :
    Reachable exRegistry ∧
    (exRegistry.servers (toString (Target.buf exTarget)) = none ∨
      exRegistry.forwards (toString (Target.buf exTarget)) = none) ∧
    get (delete exRegistry (Target.buf exTarget)) (Target.buf exTarget) = none :=
  have hreach : Reachable exRegistry :=
    Reachable.set _ _ _ _ (Reachable.set _ _ _ _ Reachable.empty)
  ⟨hreach, (registry_exclusive exRegistry hreach).1 (toString (Target.buf exTarget)),
    ((registry_exclusive exRegistry hreach).2 (Target.buf exTarget)).2.2⟩

/-! ## Target normalization -/

/-- The value of a hexadecimal digit is below sixteen. -/
theorem hexValue_lt (c : Char) (h : Nat) (hc : hexValue c = some h) : h < 16 := by
  unfold hexValue at hc
  split at hc
  · cases hc
    omega
  · split at hc
    · cases hc
      omega
    · split at hc
      · cases hc
        omega
      · cases hc

/-- A lower-case digit is the digit `hexDigit` writes for its value. -/
theorem hexDigit_hexValue (c : Char) (h : Nat) (hl : isLowerHexDigit c = true)
    (hc : hexValue c = some h) : hexDigit h = c := by
  unfold hexValue at hc
  simp only [isLowerHexDigit, Bool.or_eq_true, Bool.and_eq_true, decide_eq_true_eq] at hl
  unfold hexDigit
  split at hc
  · cases hc
    rename_i hr
    have h1 : c.toNat - 48 < 10 := by omega
    have h2 : 48 + (c.toNat - 48) = c.toNat := by omega
    rw [if_pos h1, h2]
    exact Char.ofNat_toNat c
  · split at hc
    · cases hc
      rename_i hr
      have h1 : ¬ (c.toNat - 87 < 10) := by omega
      have h2 : 87 + (c.toNat - 87) = c.toNat := by omega
      rw [if_neg h1, h2]
      exact Char.ofNat_toNat c
    · rename_i h48 h97
      exfalso
      rcases hl with hl | hl
      · exact h48 hl
      · exact h97 hl

/-- The value of the digit `hexDigit` writes. -/
theorem hexValue_hexDigit (n : Fin 16) : hexValue (hexDigit n.val) = some n.val := by
  revert n
  decide

/-- A string of lower-case digits that decodes to `b` is the string `toHex`
writes for `b`. -/
theorem toHex_of_hexDecode (cs : List Char) :
    ∀ b : Buffer, hexDecode cs = some b → (∀ c ∈ cs, isLowerHexDigit c = true) →
      (b.flatMap fun x => [hexDigit (x.val / 16), hexDigit (x.val % 16)]) = cs := by
  induction cs using hexDecode.induct with
  | case1 =>
    intro b hdec _
    simp only [hexDecode] at hdec
    cases hdec
    rfl
  | case2 c =>
    intro b hdec _
    simp [hexDecode] at hdec
  | case3 hi lo rest h l bytes hr hl hh ih =>
    intro b hdec hlow
    simp only [hexDecode, hh, hl, hr] at hdec
    cases hdec
    have hh16 := hexValue_lt hi h hh
    have hl16 := hexValue_lt lo l hl
    have hval : (Fin.ofNat (16 * h + l) : Fin 256).val = 16 * h + l := by
      show (16 * h + l) % 256 = 16 * h + l
      omega
    have hhi : hexDigit h = hi :=
      hexDigit_hexValue hi h (hlow hi (by simp)) hh
    have hlo : hexDigit l = lo :=
      hexDigit_hexValue lo l (hlow lo (by simp)) hl
    have hrest := ih bytes hr (fun c hc => hlow c (by simp [hc]))
    have hdiv : (16 * h + l) / 16 = h := by omega
    have hmod : (16 * h + l) % 16 = l := by omega
    simp only [List.flatMap_cons, hval, hdiv, hmod, hhi, hlo, hrest]
    rfl
  | case4 hi lo rest hno _ =>
    intro b hdec _
    exfalso
    simp only [hexDecode] at hdec
    cases hh : hexValue hi with
    | none => simp [hh] at hdec
    | some h =>
      cases hl : hexValue lo with
      | none => simp [hh, hl] at hdec
      | some l =>
        cases hr : hexDecode rest with
        | none => simp [hh, hl, hr] at hdec
        | some bytes => exact hno h l bytes hh hl hr

/-- The digits `hexDigit` writes are lower-case. -/
theorem hexDigit_lower (n : Fin 16) : isLowerHexDigit (hexDigit n.val) = true := by
  revert n
  decide

/-- The string `toHex` writes for `b` is made of lower-case digits and decodes
to `b`. -/
theorem hexDecode_toHex (b : Buffer) :
    hexDecode (toHex b).data = some b ∧ ∀ c ∈ (toHex b).data, isLowerHexDigit c = true := by
  show hexDecode (b.flatMap fun x => [hexDigit (x.val / 16), hexDigit (x.val % 16)]) = some b ∧
    ∀ c ∈ (b.flatMap fun x => [hexDigit (x.val / 16), hexDigit (x.val % 16)]),
      isLowerHexDigit c = true
  induction b with
  | nil =>
    constructor
    · rfl
    · intro c hc
      simp at hc
  | cons x rest ih =>
    have hx := x.isLt
    have hhi := hexValue_hexDigit ⟨x.val / 16, by omega⟩
    have hlo := hexValue_hexDigit ⟨x.val % 16, by omega⟩
    have hhil := hexDigit_lower ⟨x.val / 16, by omega⟩
    have hlol := hexDigit_lower ⟨x.val % 16, by omega⟩
    simp only at hhi hlo hhil hlol
    have hstep : ((x :: rest).flatMap fun x => [hexDigit (x.val / 16), hexDigit (x.val % 16)])
        = hexDigit (x.val / 16) :: hexDigit (x.val % 16) ::
          (rest.flatMap fun x => [hexDigit (x.val / 16), hexDigit (x.val % 16)]) := by
      simp [List.flatMap_cons]
    rw [hstep]
    constructor
    · simp only [hexDecode, hhi, hlo, ih.1]
      congr 2
      apply Fin.ext
      show (16 * (x.val / 16) + x.val % 16) % 256 = x.val
      omega
    · intro c hc
      simp only [List.mem_cons] at hc
      rcases hc with h | h | h
      · rw [h]
        exact hhil
      · rw [h]
        exact hlol
      · exact ih.2 c h

/-- Counterexample to C12: the string `AB` decodes to the byte `0xab`, yet its
key is not the key of that byte, and a registration written under the byte is
not found under the string. -/
theorem upper_case_hex_is_other_key :
    hexDecode "AB".data = some [0xab] ∧
    toString (Target.buf [0xab]) ≠ toString (Target.str "AB") ∧
    get (set (Router.empty : Router PlainWire) (Target.buf [0xab]) serverState evictNothing)
      (Target.buf [0xab]) = some serverState ∧
    get (set (Router.empty : Router PlainWire) (Target.buf [0xab]) serverState evictNothing)
      (Target.str "AB") = none := by
  refine ⟨by decide, by decide, ?_, ?_⟩
  · simp [set, get, serverState, serverMap_set_apply]
  · have hkey : toString (Target.str "AB") ≠ toString (Target.buf [0xab]) := by decide
    simp [set, get, serverState, serverMap_set_apply, cache_delete_apply, hkey, Router.empty]

/-- C12, amended: for every byte sequence `b` and every string `s` of lower-case
hexadecimal digits whose hexadecimal decoding is `b`, `toString b` equals
`toString s`; hence after a `set` under one representation of the target,
`get` under the other representation returns what `get` under the written
representation returns. -/
theorem lower_case_hex_same_key {W : Type} (r : Router W) (state : State W)
    (evicted : String → Bool) (b : Buffer) (s : String)
    (hdec : hexDecode s.data = some b) (hlow : ∀ c ∈ s.data, isLowerHexDigit c = true) :
    toString (Target.buf b) = toString (Target.str s) ∧
    get (set r (Target.buf b) state evicted) (Target.str s)
      = get (set r (Target.buf b) state evicted) (Target.buf b) ∧
    get (set r (Target.str s) state evicted) (Target.buf b)
      = get (set r (Target.str s) state evicted) (Target.str s) := by
  have hkey : toString (Target.buf b) = toString (Target.str s) := by
    show toHex b = s
    unfold toHex
    rw [toHex_of_hexDecode s.data b hdec hlow]
  refine ⟨hkey, ?_, ?_⟩
  · simp only [get, hkey]
  · simp only [get, hkey]

/-- Witness of C12, amended: the string `abcd` and the bytes of `exTarget` name
the same key. -/
theorem lower_case_hex_same_key_witness :
    hexDecode "abcd".data = some exTarget ∧
    toString (Target.buf exTarget) = toString (Target.str "abcd") ∧
    get (set (Router.empty : Router PlainWire) (Target.buf exTarget) serverState evictNothing)
        (Target.str "abcd")
      = get (set (Router.empty : Router PlainWire) (Target.buf exTarget) serverState
        evictNothing) (Target.buf exTarget) :=
  ⟨by decide,
    (lower_case_hex_same_key (Router.empty : Router PlainWire) serverState evictNothing exTarget
      "abcd" (by decide) (by decide)).1,
    (lower_case_hex_same_key (Router.empty : Router PlainWire) serverState evictNothing exTarget
      "abcd" (by decide) (by decide)).2.1⟩

/-! ## Handshake dispatch: the remaining legs -/

/-- Unfolding of the flag `isServer` when it is false. -/
theorem callback_none_of_not_server {W : Type} (r : Router W) (req : Req W)
    (hsrv : isServer r req = false) :
    ((stateOf r req).bind fun s => s.onpeerhandshake) = none := by
  simpa [isServer] using hsrv

/-- C13: for an inbound handshake message with mode FROM_CLIENT and noise
present on a node that is not a Server for the target, if the message carries a
relayAddress or a relay is remembered for the target, `onpeerhandshake` issues
exactly one relay and no reply; the relay goes to the relayAddress of the
message when present and to the remembered relay otherwise, and carries mode
FROM_RELAY, the inbound noise, the address of the immediate sender as
peerAddress and no relayAddress. Two inbound requests that differ only in the
peerAddress supplied by the client have the same outcome. -/
theorem first_relay_hop {W : Type} (codec : Codec W)
    (safetyCatch : Err → Except Err Unit) (r : Router W) (req : Req W) (v : W)
    (hs : Handshake) (noise : Buffer)
    (hv : req.value = some v) (hdec : codec.decodeHandshake (some v) = Except.ok hs)
    (hmode : hs.mode = FROM_CLIENT) (hnoise : hs.noise = some noise)
    (hsrv : isServer r req = false) :
    (∀ relayAddress, hs.relayAddress = some relayAddress →
      onpeerhandshake codec safetyCatch r req =
        { calls := []
          actions := [Action.relay
            (codec.encodeHandshake
              { mode := FROM_RELAY, noise := some noise, peerAddress := some req.from_,
                relayAddress := none })
            relayAddress none]
          raised := none }) ∧
    (∀ remembered, hs.relayAddress = none → relayOf r req = some remembered →
      onpeerhandshake codec safetyCatch r req =
        { calls := []
          actions := [Action.relay
            (codec.encodeHandshake
              { mode := FROM_RELAY, noise := some noise, peerAddress := some req.from_,
                relayAddress := none })
            remembered none]
          raised := none }) ∧
    (∀ (req2 : Req W) (v2 : W) (hs2 : Handshake), req2.value = some v2 →
      codec.decodeHandshake (some v2) = Except.ok hs2 →
      req2.target = req.target → req2.from_ = req.from_ →
      hs2.mode = hs.mode → hs2.noise = hs.noise → hs2.relayAddress = hs.relayAddress →
      onpeerhandshake codec safetyCatch r req2 = onpeerhandshake codec safetyCatch r req) := by
  have hcb := callback_none_of_not_server r req hsrv
  refine ⟨?_, ?_, ?_⟩
  · intro relayAddress hexplicit
    simp [onpeerhandshake, hv, decode, hdec, hcb, hnoise, hmode, hexplicit]
  · intro remembered hexplicit hrelay
    have hrl : ((stateOf r req).bind fun s => s.relay) = some remembered := hrelay
    simp [onpeerhandshake, hv, decode, hdec, hcb, hrl, hnoise, hmode, hexplicit]
  · intro req2 v2 hs2 hv2 hdec2 htarget hfrom hmode2 hnoise2 hexplicit2
    have hstate : stateOf r req2 = stateOf r req := by simp [stateOf, htarget]
    have hcb2 : ((stateOf r req2).bind fun s => s.onpeerhandshake) = none := by
      rw [hstate]
      exact hcb
    simp [onpeerhandshake, hv, hv2, decode, hdec, hdec2, hcb, hcb2, hstate, hmode2, hnoise2,
      hexplicit2, hfrom, hmode, hnoise]

/-- The relay of the scenario is not a Server for `exTarget` and remembers no relay. -/
theorem relayNodeRegistry_not_server (req : Req PlainWire) (h : req.target = some exTarget) :
    isServer relayNodeRegistry req = false ∧ relayOf relayNodeRegistry req = none := by
  have hstate := stateOf_of_get relayNodeRegistry req exTarget forwardState h
    relayNodeRegistry_get
  simp [isServer, relayOf, hstate, forwardState]

/-- Witness of C13: the relay of the scenario forwards the client's handshake to
the relayAddress it names, with the observed sender as peerAddress and not the
address the client claimed. -/
theorem first_relay_hop_witness :
    isServer relayNodeRegistry viaRelayRequest = false ∧
    onpeerhandshake plainCodec safetyCatchPkg relayNodeRegistry viaRelayRequest =
      { calls := []
        actions := [Action.relay
          (Sum.inl
            { mode := FROM_RELAY, noise := some noiseA, peerAddress := some clientAddr,
              relayAddress := none })
          serverAddr none]
        raised := none } :=
  ⟨(relayNodeRegistry_not_server viaRelayRequest rfl).1,
    (first_relay_hop plainCodec safetyCatchPkg relayNodeRegistry viaRelayRequest
      (Sum.inl
        { mode := FROM_CLIENT, noise := some noiseA, peerAddress := some otherAddr,
          relayAddress := some serverAddr })
      { mode := FROM_CLIENT, noise := some noiseA, peerAddress := some otherAddr,
        relayAddress := some serverAddr }
      noiseA rfl rfl rfl rfl (relayNodeRegistry_not_server viaRelayRequest rfl).1).1
      serverAddr rfl⟩

/-- C14: on a Server whose handshake callback, invoked on the inbound noise,
returns a result with noise `X`, `onpeerhandshake` issues no reply and (a) for
mode FROM_RELAY exactly one relay of FROM_SERVER with noise `X` and the inbound
peerAddress, addressed to the immediate sender; (b) for mode FROM_SECOND_RELAY
with relayAddress present exactly one relay of the same message addressed to
the inbound relayAddress; (c) for mode FROM_SECOND_RELAY with relayAddress
absent no relay at all. -/
theorem server_return_route {W : Type} (codec : Codec W)
    (safetyCatch : Err → Except Err Unit) (r : Router W) (req : Req W) (v : W)
    (hs : Handshake) (t : Buffer) (s : State W)
    (callback : HandshakePayload → Req W → Except Err (Option HandshakeReply))
    (noise X : Buffer) (reply : HandshakeReply)
    (hv : req.value = some v) (hdec : codec.decodeHandshake (some v) = Except.ok hs)
    (hnoise : hs.noise = some noise)
    (ht : req.target = some t) (hget : get r (Target.buf t) = some s)
    (hcb : s.onpeerhandshake = some callback)
    (hret : callback { noise := some noise, peerAddress := hs.peerAddress } req
      = Except.ok (some reply))
    (hX : reply.noise = some X) :
    (hs.mode = FROM_RELAY →
      onpeerhandshake codec safetyCatch r req =
        { calls := [Call.handshake { noise := some noise, peerAddress := hs.peerAddress }]
          actions := [Action.relay
            (codec.encodeHandshake
              { mode := FROM_SERVER, noise := some X, peerAddress := hs.peerAddress,
                relayAddress := none })
            req.from_
            (some { socket := reply.socket, to_ := none, closerNodes := false, token := false })]
          raised := none }) ∧
    (∀ relayAddress, hs.mode = FROM_SECOND_RELAY → hs.relayAddress = some relayAddress →
      onpeerhandshake codec safetyCatch r req =
        { calls := [Call.handshake { noise := some noise, peerAddress := hs.peerAddress }]
          actions := [Action.relay
            (codec.encodeHandshake
              { mode := FROM_SERVER, noise := some X, peerAddress := hs.peerAddress,
                relayAddress := none })
            relayAddress
            (some { socket := reply.socket, to_ := none, closerNodes := false, token := false })]
          raised := none }) ∧
    (hs.mode = FROM_SECOND_RELAY → hs.relayAddress = none →
      onpeerhandshake codec safetyCatch r req =
        { calls := [Call.handshake { noise := some noise, peerAddress := hs.peerAddress }]
          actions := []
          raised := none }) := by
  have hstate := stateOf_of_get r req t s ht hget
  have hne1 : ¬ (FROM_RELAY = FROM_CLIENT) := by decide
  have hne2 : ¬ (FROM_SECOND_RELAY = FROM_CLIENT) := by decide
  have hne3 : ¬ (FROM_SECOND_RELAY = FROM_RELAY) := by decide
  refine ⟨?_, ?_, ?_⟩
  · intro hmode
    simp [onpeerhandshake, hv, decode, hdec, hstate, hcb, hnoise, hret, hX, hmode, hne1]
  · intro relayAddress hmode hexplicit
    simp [onpeerhandshake, hv, decode, hdec, hstate, hcb, hnoise, hret, hX, hmode, hne2, hne3,
      hexplicit]
  · intro hmode hexplicit
    simp [onpeerhandshake, hv, decode, hdec, hstate, hcb, hnoise, hret, hX, hmode, hne2, hne3,
      hexplicit]

/-- Witness of C14: the example Server sends its answer to a FROM_RELAY message
back to the relay the message came from. -/
theorem server_return_route_witness :
    get exRegistry (Target.buf exTarget) = some serverState ∧
    onpeerhandshake plainCodec safetyCatchPkg exRegistry relayedRequest =
      { calls := [Call.handshake { noise := some noiseA, peerAddress := some clientAddr }]
        actions := [Action.relay
          (Sum.inl
            { mode := FROM_SERVER, noise := some noiseB, peerAddress := some clientAddr,
              relayAddress := none })
          relayAddr
          (some { socket := some 7, to_ := none, closerNodes := false, token := false })]
        raised := none } :=
  ⟨exRegistry_get,
    (server_return_route plainCodec safetyCatchPkg exRegistry relayedRequest
      (Sum.inl
        { mode := FROM_RELAY, noise := some noiseA, peerAddress := some clientAddr,
          relayAddress := none })
      { mode := FROM_RELAY, noise := some noiseA, peerAddress := some clientAddr,
        relayAddress := none }
      exTarget serverState
      (fun _ _ => Except.ok (some { noise := some noiseB, socket := some 7 }))
      noiseA noiseB { noise := some noiseB, socket := some 7 }
      rfl rfl rfl rfl exRegistry_get rfl rfl rfl).1 rfl⟩

/-- C15: for an inbound handshake message with mode FROM_SERVER on a node that
is not a Server for the target, whatever else the registry holds: if
peerAddress and noise are both present `onpeerhandshake` issues exactly one
reply, addressed to the inbound peerAddress, carrying mode REPLY, the inbound
noise, the address of the immediate sender as peerAddress and no relayAddress,
and no relay; if peerAddress or noise is absent it issues nothing. -/
theorem terminal_handshake_leg {W : Type} (codec : Codec W)
    (safetyCatch : Err → Except Err Unit) (r : Router W) (req : Req W) (v : W)
    (hs : Handshake)
    (hv : req.value = some v) (hdec : codec.decodeHandshake (some v) = Except.ok hs)
    (hmode : hs.mode = FROM_SERVER) (hsrv : isServer r req = false) :
    (∀ peerAddress noise, hs.peerAddress = some peerAddress → hs.noise = some noise →
      onpeerhandshake codec safetyCatch r req =
        { calls := []
          actions := [Action.reply
            (some (codec.encodeHandshake
              { mode := REPLY, noise := some noise, peerAddress := some req.from_,
                relayAddress := none }))
            { socket := none, to_ := some peerAddress, closerNodes := false, token := false }]
          raised := none }) ∧
    (hs.peerAddress = none ∨ hs.noise = none →
      onpeerhandshake codec safetyCatch r req = { calls := [], actions := [], raised := none }) := by
  have hcb := callback_none_of_not_server r req hsrv
  have hne1 : ¬ (FROM_SERVER = FROM_CLIENT) := by decide
  have hne2 : ¬ (FROM_SERVER = FROM_RELAY) := by decide
  constructor
  · intro peerAddress noise hpeer hnoise
    simp [onpeerhandshake, hv, decode, hdec, hcb, hmode, hne1, hne2, hpeer, hnoise]
  · intro habs
    cases hpeer : hs.peerAddress with
    | none =>
      simp [onpeerhandshake, hv, decode, hdec, hcb, hmode, hne1, hne2, hpeer, Outcome.dropped]
    | some peerAddress =>
      have hnoise : hs.noise = none := by
        rcases habs with h | h
        · rw [hpeer] at h
          cases h
        · exact h
      simp [onpeerhandshake, hv, decode, hdec, hcb, hmode, hne1, hne2, hpeer, hnoise,
        Outcome.dropped]

/-- Witness of C15: the relay of the scenario hands the answer of the server to
the client named in peerAddress. -/
theorem terminal_handshake_leg_witness :
    isServer relayNodeRegistry serverAnswerRequest = false ∧
    onpeerhandshake plainCodec safetyCatchPkg relayNodeRegistry serverAnswerRequest =
      { calls := []
        actions := [Action.reply
          (some (Sum.inl
            { mode := REPLY, noise := some noiseB, peerAddress := some serverAddr,
              relayAddress := none }))
          { socket := none, to_ := some clientAddr, closerNodes := false, token := false }]
        raised := none } :=
  ⟨(relayNodeRegistry_not_server serverAnswerRequest rfl).1,
    (terminal_handshake_leg plainCodec safetyCatchPkg relayNodeRegistry serverAnswerRequest
      (Sum.inl
        { mode := FROM_SERVER, noise := some noiseB, peerAddress := some clientAddr,
          relayAddress := none })
      { mode := FROM_SERVER, noise := some noiseB, peerAddress := some clientAddr,
        relayAddress := none }
      rfl rfl rfl (relayNodeRegistry_not_server serverAnswerRequest rfl).1).1
      clientAddr noiseB rfl rfl⟩

/-! ## Holepunch dispatch -/

/-- C16: for an inbound holepunch message with mode FROM_CLIENT, on any node: if
the message carries no peerAddress and no relay is remembered for the target,
`onpeerholepunch` issues nothing; otherwise it issues exactly one relay and no
reply, addressed to the peerAddress of the message when present and to the
remembered relay otherwise, carrying mode FROM_RELAY, the inbound id, the
inbound payload and the address of the immediate sender as peerAddress. -/
theorem holepunch_from_client {W : Type} (codec : Codec W)
    (safetyCatch : Err → Except Err Unit) (r : Router W) (req : Req W) (v : W)
    (hp : Holepunch)
    (hv : req.value = some v) (hdec : codec.decodeHolepunch (some v) = Except.ok hp)
    (hmode : hp.mode = FROM_CLIENT) :
    (hp.peerAddress = none → relayOf r req = none →
      onpeerholepunch codec safetyCatch r req = { calls := [], actions := [], raised := none }) ∧
    (∀ peerAddress, hp.peerAddress = some peerAddress →
      onpeerholepunch codec safetyCatch r req =
        { calls := []
          actions := [Action.relay
            (codec.encodeHolepunch
              { mode := FROM_RELAY, id := hp.id, payload := hp.payload,
                peerAddress := some req.from_ })
            peerAddress none]
          raised := none }) ∧
    (∀ remembered, hp.peerAddress = none → relayOf r req = some remembered →
      onpeerholepunch codec safetyCatch r req =
        { calls := []
          actions := [Action.relay
            (codec.encodeHolepunch
              { mode := FROM_RELAY, id := hp.id, payload := hp.payload,
                peerAddress := some req.from_ })
            remembered none]
          raised := none }) := by
  refine ⟨?_, ?_, ?_⟩
  · intro hpeer hrelay
    have hrl : ((stateOf r req).bind fun s => s.relay) = none := hrelay
    simp [onpeerholepunch, hv, decode, hdec, hmode, hpeer, hrl, Outcome.dropped]
  · intro peerAddress hpeer
    simp [onpeerholepunch, hv, decode, hdec, hmode, hpeer]
  · intro remembered hpeer hrelay
    have hrl : ((stateOf r req).bind fun s => s.relay) = some remembered := hrelay
    simp [onpeerholepunch, hv, decode, hdec, hmode, hpeer, hrl]

/-- Witness of C16: the example Server, asked by a client to punch toward
`serverAddr`, relays the request there with the sender as peerAddress; a node
without registration drops a request that names no peer. -/
theorem holepunch_from_client_witness :
    onpeerholepunch plainCodec safetyCatchPkg exRegistry clientPunch =
      { calls := []
        actions := [Action.relay
          (Sum.inr
            { mode := FROM_RELAY, id := 5, payload := some [1, 2],
              peerAddress := some clientAddr })
          serverAddr none]
        raised := none } ∧
    relayOf (Router.empty : Router PlainWire) unroutedPunch = none ∧
    onpeerholepunch plainCodec safetyCatchPkg Router.empty unroutedPunch =
      { calls := [], actions := [], raised := none } :=
  ⟨(holepunch_from_client plainCodec safetyCatchPkg exRegistry clientPunch
      (Sum.inr
        { mode := FROM_CLIENT, id := 5, payload := some [1, 2], peerAddress := some serverAddr })
      { mode := FROM_CLIENT, id := 5, payload := some [1, 2], peerAddress := some serverAddr }
      rfl rfl rfl).2.1 serverAddr rfl,
    rfl,
    (holepunch_from_client plainCodec safetyCatchPkg Router.empty unroutedPunch
      (Sum.inr
        { mode := FROM_CLIENT, id := 5, payload := some [1, 2], peerAddress := none })
      { mode := FROM_CLIENT, id := 5, payload := some [1, 2], peerAddress := none }
      rfl rfl rfl).1 rfl rfl⟩

/-- C17: for an inbound holepunch message with mode FROM_RELAY and peerAddress
present, on a Server whose holepunch callback, invoked with the inbound id,
payload and peerAddress, returns a result `reply`, `onpeerholepunch` issues
exactly one relay and no reply, addressed to the immediate sender, carrying
mode FROM_SERVER, id 0, the payload of `reply` and the inbound peerAddress; the
relayed id is 0 whatever the inbound id. -/
theorem holepunch_server_answers {W : Type} (codec : Codec W)
    (safetyCatch : Err → Except Err Unit) (r : Router W) (req : Req W) (v : W)
    (hp : Holepunch) (t : Buffer) (s : State W)
    (callback : HolepunchPayload → Req W → Except Err (Option HolepunchReply))
    (peerAddress : Endpoint) (reply : HolepunchReply)
    (hv : req.value = some v) (hdec : codec.decodeHolepunch (some v) = Except.ok hp)
    (hmode : hp.mode = FROM_RELAY) (hpeer : hp.peerAddress = some peerAddress)
    (ht : req.target = some t) (hget : get r (Target.buf t) = some s)
    (hcb : s.onpeerholepunch = some callback)
    (hret : callback { id := hp.id, payload := hp.payload, peerAddress := some peerAddress } req
      = Except.ok (some reply)) :
    onpeerholepunch codec safetyCatch r req =
      { calls := [Call.holepunch
          { id := hp.id, payload := hp.payload, peerAddress := some peerAddress }]
        actions := [Action.relay
          (codec.encodeHolepunch
            { mode := FROM_SERVER, id := 0, payload := reply.payload,
              peerAddress := some peerAddress })
          req.from_
          (some { socket := reply.socket, to_ := none, closerNodes := false, token := false })]
        raised := none } := by
  have hstate := stateOf_of_get r req t s ht hget
  have hne : ¬ (FROM_RELAY = FROM_CLIENT) := by decide
  simp [onpeerholepunch, hv, decode, hdec, hstate, hcb, hpeer, hmode, hne, hret]

/-- Witness of C17: the example Server answers a relayed holepunch with id 5 by a
FROM_SERVER message with id 0, sent back to the relay. -/
theorem holepunch_server_answers_witness :
    get exRegistry (Target.buf exTarget) = some serverState ∧
    onpeerholepunch plainCodec safetyCatchPkg exRegistry relayedPunch =
      { calls := [Call.holepunch
          { id := 5, payload := some [1, 2], peerAddress := some clientAddr }]
        actions := [Action.relay
          (Sum.inr
            { mode := FROM_SERVER, id := 0, payload := some [1, 2],
              peerAddress := some clientAddr })
          relayAddr
          (some { socket := none, to_ := none, closerNodes := false, token := false })]
        raised := none } :=
  ⟨exRegistry_get,
    holepunch_server_answers plainCodec safetyCatchPkg exRegistry relayedPunch
      (Sum.inr
        { mode := FROM_RELAY, id := 5, payload := some [1, 2], peerAddress := some clientAddr })
      { mode := FROM_RELAY, id := 5, payload := some [1, 2], peerAddress := some clientAddr }
      exTarget serverState
      (fun p _ => Except.ok (some { payload := p.payload, socket := none }))
      clientAddr { payload := some [1, 2], socket := none }
      rfl rfl rfl rfl rfl exRegistry_get rfl rfl⟩

/-- C18, the code at the failing input: a holepunch message with mode FROM_SERVER
and no peerAddress is not dropped. `onpeerholepunch` issues a reply that carries
mode REPLY and whose options name no destination, so the transport sends it to
the requester; the handshake dispatcher drops a FROM_SERVER message without
peerAddress. With peerAddress present the reply goes there. -/
theorem holepunch_from_server_without_peerAddress :
    onpeerholepunch plainCodec safetyCatchPkg relayNodeRegistry unaddressedAnswerPunch =
      { calls := []
        actions := [Action.reply
          (some (Sum.inr
            { mode := REPLY, id := 0, payload := some [1, 2], peerAddress := some serverAddr }))
          { socket := none, to_ := none, closerNodes := false, token := false }]
        raised := none } ∧
    onpeerholepunch plainCodec safetyCatchPkg relayNodeRegistry addressedAnswerPunch =
      { calls := []
        actions := [Action.reply
          (some (Sum.inr
            { mode := REPLY, id := 0, payload := some [1, 2], peerAddress := some serverAddr }))
          { socket := none, to_ := some clientAddr, closerNodes := false, token := false }]
        raised := none } ∧
    onpeerhandshake plainCodec safetyCatchPkg relayNodeRegistry
        { target := some exTarget
          value := some (Sum.inl
            { mode := FROM_SERVER, noise := some noiseB, peerAddress := none,
              relayAddress := none })
          from_ := serverAddr, to_ := relayAddr }
      = { calls := [], actions := [], raised := none } := by
  refine ⟨?_, ?_, ?_⟩
  · rfl
  · rfl
  · have hstate : stateOf relayNodeRegistry
        ({ target := some exTarget
           value := some (Sum.inl
             { mode := FROM_SERVER, noise := some noiseB, peerAddress := none,
               relayAddress := none })
           from_ := serverAddr, to_ := relayAddr } : Req PlainWire) = some forwardState :=
      stateOf_of_get _ _ exTarget _ rfl relayNodeRegistry_get
    simp only [onpeerhandshake, hstate]
    rfl

/-! ## Which registrations act as Server -/

/-- Without a holepunch callback in the registration, `onpeerholepunch` invokes
no callback. -/
theorem holepunch_calls_of_no_callback {W : Type} (codec : Codec W)
    (safetyCatch : Err → Except Err Unit) (r : Router W) (req : Req W)
    (h : isHolepunchServer r req = false) :
    (onpeerholepunch codec safetyCatch r req).calls = [] := by
  have hcb : ((stateOf r req).bind fun s => s.onpeerholepunch) = none := by
    simpa [isHolepunchServer] using h
  unfold onpeerholepunch
  simp only [hcb]
  repeat' split
  all_goals rfl

/-- What the dispatchers read for a target right after `set` wrote it: the
registration written, or nothing when the bounded store dropped it; and it is
the durable store that holds it exactly when it has a handshake callback. -/
theorem stateOf_after_set {W : Type} (r : Router W) (t : Buffer) (state : State W)
    (evicted : String → Bool) (req : Req W) (ht : req.target = some t) :
    (stateOf (set r (Target.buf t) state evicted) req = some state ∨
      stateOf (set r (Target.buf t) state evicted) req = none) ∧
    (state.onpeerhandshake.isSome = true →
      stateOf (set r (Target.buf t) state evicted) req = some state ∧
      (set r (Target.buf t) state evicted).servers (toString (Target.buf t)) = some state ∧
      (set r (Target.buf t) state evicted).forwards (toString (Target.buf t)) = none) ∧
    (state.onpeerhandshake.isSome = false →
      (set r (Target.buf t) state evicted).servers (toString (Target.buf t)) = none) := by
  cases hsrv : state.onpeerhandshake.isSome with
  | true =>
    simp [stateOf, ht, get, set_server r (Target.buf t) state evicted hsrv, serverMap_set_apply,
      cache_delete_apply]
  | false =>
    cases hev : evicted (toString (Target.buf t)) <;>
      simp [stateOf, ht, get, set_forward r (Target.buf t) state evicted hsrv,
        serverMap_delete_apply, cache_set_apply, hev]

/-- Counterexample to C19: a registration with a holepunch callback and no
handshake callback is kept by `set` in the evictable store and is not a Server
for `onpeerhandshake`, yet `onpeerholepunch` invokes its callback on a
FROM_RELAY message and relays the answer; a registration with a handshake
callback and no holepunch callback is kept in the durable store and is a Server
for `onpeerhandshake`, yet `onpeerholepunch` drops the FROM_RELAY message. -/
theorem holepunch_server_is_another_notion :
    (punchOnlyRegistry.servers (toString (Target.buf exTarget))).isSome = false ∧
    (punchOnlyRegistry.forwards (toString (Target.buf exTarget))).isSome = true ∧
    isServer punchOnlyRegistry relayedPunch = false ∧
    onpeerholepunch plainCodec safetyCatchPkg punchOnlyRegistry relayedPunch =
      { calls := [Call.holepunch
          { id := 5, payload := some [1, 2], peerAddress := some clientAddr }]
        actions := [Action.relay
          (Sum.inr
            { mode := FROM_SERVER, id := 0, payload := some [1, 2],
              peerAddress := some clientAddr })
          relayAddr
          (some { socket := none, to_ := none, closerNodes := false, token := false })]
        raised := none } ∧
    (handshakeOnlyRegistry.servers (toString (Target.buf exTarget))).isSome = true ∧
    isServer handshakeOnlyRegistry relayedPunch = true ∧
    onpeerholepunch plainCodec safetyCatchPkg handshakeOnlyRegistry relayedPunch =
      { calls := [], actions := [], raised := none } := by
  refine ⟨rfl, rfl, rfl, rfl, rfl, rfl, rfl⟩

/-- C19, amended: for every registration `state` written with `set target state`,
`onpeerholepunch` invokes a holepunch callback on a message for that target only
if `state` carries a holepunch callback. When `state` carries both callbacks or
neither, this is the notion of Server of `set` and of `onpeerhandshake`: the
holepunch dispatcher treats the target as Server exactly when the handshake
dispatcher does, that is exactly when the registration sits in the durable
store, and a registration kept in the evictable store is never acted on. -/
theorem holepunch_server_notion {W : Type} (codec : Codec W)
    (safetyCatch : Err → Except Err Unit) (r : Router W) (t : Buffer) (state : State W)
    (evicted : String → Bool) (req : Req W) (ht : req.target = some t) :
    ((onpeerholepunch codec safetyCatch (set r (Target.buf t) state evicted) req).calls ≠ [] →
      state.onpeerholepunch ≠ none) ∧
    (state.onpeerhandshake.isSome = state.onpeerholepunch.isSome →
      isHolepunchServer (set r (Target.buf t) state evicted) req
        = isServer (set r (Target.buf t) state evicted) req ∧
      (isHolepunchServer (set r (Target.buf t) state evicted) req = true ↔
        ((set r (Target.buf t) state evicted).servers (toString (Target.buf t))).isSome
          = true) ∧
      (((set r (Target.buf t) state evicted).forwards (toString (Target.buf t))).isSome
          = true →
        (onpeerholepunch codec safetyCatch (set r (Target.buf t) state evicted) req).calls
          = [])) := by
  have hset := stateOf_after_set r t state evicted req ht
  constructor
  · intro hcalls hnone
    apply hcalls
    apply holepunch_calls_of_no_callback
    rcases hset.1 with h | h
    · simp [isHolepunchServer, h, hnone]
    · simp [isHolepunchServer, h]
  · intro hshape
    cases hsrv : state.onpeerhandshake.isSome with
    | true =>
      have hpunch : state.onpeerholepunch.isSome = true := by
        rw [← hshape]
        exact hsrv
      obtain ⟨hstate, hdur, hfwd⟩ := hset.2.1 hsrv
      refine ⟨?_, ?_, ?_⟩
      · simp [isHolepunchServer, isServer, hstate, hsrv, hpunch]
      · simp [isHolepunchServer, hstate, hpunch, hdur]
      · intro h
        rw [hfwd] at h
        cases h
    | false =>
      have hpunch : state.onpeerholepunch.isSome = false := by
        rw [← hshape]
        exact hsrv
      have hdur := hset.2.2 hsrv
      have hflag : isHolepunchServer (set r (Target.buf t) state evicted) req = false := by
        rcases hset.1 with h | h
        · simp [isHolepunchServer, h, hpunch]
        · simp [isHolepunchServer, h]
      have hflag2 : isServer (set r (Target.buf t) state evicted) req = false := by
        rcases hset.1 with h | h
        · simp [isServer, h, hsrv]
        · simp [isServer, h]
      refine ⟨?_, ?_, ?_⟩
      · rw [hflag, hflag2]
      · rw [hflag, hdur]
        simp
      · intro _
        exact holepunch_calls_of_no_callback codec safetyCatch _ req hflag

/-- Witness of C19, amended: the example Server registration carries both
callbacks, sits in the durable store, and is a Server for both dispatchers. -/
theorem holepunch_server_notion_witness :
    relayedPunch.target = some exTarget ∧
    serverState.onpeerhandshake.isSome = serverState.onpeerholepunch.isSome ∧
    isHolepunchServer (set Router.empty (Target.buf exTarget) serverState evictNothing)
        relayedPunch
      = isServer (set Router.empty (Target.buf exTarget) serverState evictNothing)
        relayedPunch :=
  ⟨rfl, rfl,
    ((holepunch_server_notion plainCodec safetyCatchPkg Router.empty exTarget serverState
      evictNothing relayedPunch rfl).2 rfl).1⟩

/-! ## Mode progress -/

/-- Rank of FROM_CLIENT. -/
theorem modeRank_client : modeRank FROM_CLIENT = 0 := by decide

/-- Rank of FROM_RELAY. -/
theorem modeRank_relay : modeRank FROM_RELAY = 1 := by decide

/-- Rank of FROM_SECOND_RELAY. -/
theorem modeRank_second_relay : modeRank FROM_SECOND_RELAY = 2 := by decide

/-- Rank of FROM_SERVER. -/
theorem modeRank_server : modeRank FROM_SERVER = 3 := by decide

/-- Rank of REPLY. -/
theorem modeRank_reply : modeRank REPLY = 4 := by decide

/-- One run of `onpeerhandshake` issues at most one action, and a message it
sends has a mode of higher rank than the inbound one. -/
theorem handshake_progress {W : Type} (codec : Codec W)
    (safetyCatch : Err → Except Err Unit) (r : Router W) (req : Req W) (v : W)
    (hs : Handshake) (hv : req.value = some v)
    (hdec : codec.decodeHandshake (some v) = Except.ok hs) :
    (onpeerhandshake codec safetyCatch r req).actions.length ≤ 1 ∧
    ∀ a ∈ (onpeerhandshake codec safetyCatch r req).actions, ∀ w, a.payload = some w →
      ∃ m, w = codec.encodeHandshake m ∧ modeRank hs.mode < modeRank m.mode ∧
        modeRank m.mode ≤ 4 := by
  have hbind : (req.value.bind fun v => decode codec.decodeHandshake (some v)) = some hs := by
    simp [hv, decode, hdec]
  unfold onpeerhandshake
  rw [hbind]
  simp only [caught]
  repeat' split
  all_goals
    refine ⟨by simp [Outcome.dropped], ?_⟩
    intro a ha w hw
    simp [Outcome.dropped] at ha
  all_goals
    subst ha
    simp [Action.payload] at hw
  all_goals
    subst hw
    refine ⟨_, rfl, ?_⟩
    simp [*, modeRank_client, modeRank_relay, modeRank_second_relay, modeRank_server,
      modeRank_reply]

/-- One run of `onpeerholepunch` issues at most one action, and a message it
sends has a mode of higher rank than the inbound one. -/
theorem holepunch_progress {W : Type} (codec : Codec W)
    (safetyCatch : Err → Except Err Unit) (r : Router W) (req : Req W) (v : W)
    (hp : Holepunch) (hv : req.value = some v)
    (hdec : codec.decodeHolepunch (some v) = Except.ok hp) :
    (onpeerholepunch codec safetyCatch r req).actions.length ≤ 1 ∧
    ∀ a ∈ (onpeerholepunch codec safetyCatch r req).actions, ∀ w, a.payload = some w →
      ∃ m, w = codec.encodeHolepunch m ∧ modeRank hp.mode < modeRank m.mode ∧
        modeRank m.mode ≤ 4 := by
  have hbind : (req.value.bind fun v => decode codec.decodeHolepunch (some v)) = some hp := by
    simp [hv, decode, hdec]
  unfold onpeerholepunch
  rw [hbind]
  simp only [caught]
  repeat' split
  all_goals
    refine ⟨by simp [Outcome.dropped], ?_⟩
    intro a ha w hw
    simp [Outcome.dropped] at ha
  all_goals
    subst ha
    simp [Action.payload] at hw
  all_goals
    subst hw
    refine ⟨_, rfl, ?_⟩
    simp [*, modeRank_client, modeRank_relay, modeRank_second_relay, modeRank_server,
      modeRank_reply]

/-- A chain along a relation that raises a rank bounded by four has at most four
links beyond a start of rank zero. -/
theorem chain_length_of_rank {α : Type} (rank : α → Nat) (R : α → α → Prop)
    (hR : ∀ a b, R a b → rank a < rank b ∧ rank b ≤ 4) :
    ∀ (rest : List α) (m0 : α), rank m0 ≤ 4 → List.Chain R m0 rest →
      rest.length + rank m0 ≤ 4 := by
  intro rest
  induction rest with
  | nil =>
    intro m0 h0 _
    simpa using h0
  | cons b rest ih =>
    intro m0 _ hchain
    rw [List.chain_cons] at hchain
    have hstep := hR m0 b hchain.1
    have hrest := ih b hstep.2 hchain.2
    simp only [List.length_cons]
    omega

/-- C20: rank the modes FROM_CLIENT < FROM_RELAY < FROM_SECOND_RELAY < FROM_SERVER
< REPLY. For every inbound handshake or holepunch message, every registry and
every callback, one run of `onpeerhandshake` or `onpeerholepunch` issues at most
one outbound action, and the mode of a message it sends is strictly higher in
this rank than the inbound mode. An inbound REPLY is never answered or relayed,
a node that is not a Server never forwards an inbound FROM_SECOND_RELAY, and in
every chain of dispatches started by a FROM_CLIENT message, each dispatch
sending the message the next one receives, at most four dispatches send; the
chain bound asks of the wire only that a message is received with the mode it
was sent with. -/
theorem mode_progress {W : Type} (codec : Codec W) (safetyCatch : Err → Except Err Unit) :
    (∀ (r : Router W) (req : Req W) (v : W) (hs : Handshake),
      req.value = some v → codec.decodeHandshake (some v) = Except.ok hs →
      (onpeerhandshake codec safetyCatch r req).actions.length ≤ 1 ∧
      (∀ a ∈ (onpeerhandshake codec safetyCatch r req).actions, ∀ w, a.payload = some w →
        ∃ m, w = codec.encodeHandshake m ∧ modeRank hs.mode < modeRank m.mode) ∧
      (hs.mode = REPLY → (onpeerhandshake codec safetyCatch r req).actions = []) ∧
      (hs.mode = FROM_SECOND_RELAY → isServer r req = false →
        (onpeerhandshake codec safetyCatch r req).actions = [])) ∧
    (∀ (r : Router W) (req : Req W) (v : W) (hp : Holepunch),
      req.value = some v → codec.decodeHolepunch (some v) = Except.ok hp →
      (onpeerholepunch codec safetyCatch r req).actions.length ≤ 1 ∧
      (∀ a ∈ (onpeerholepunch codec safetyCatch r req).actions, ∀ w, a.payload = some w →
        ∃ m, w = codec.encodeHolepunch m ∧ modeRank hp.mode < modeRank m.mode) ∧
      (hp.mode = REPLY → (onpeerholepunch codec safetyCatch r req).actions = [])) ∧
    ((∀ m m2, codec.decodeHandshake (some (codec.encodeHandshake m)) = Except.ok m2 →
        m2.mode = m.mode) →
      ∀ (m0 : Handshake) (rest : List Handshake), m0.mode = FROM_CLIENT →
        List.Chain (HandshakeStep codec safetyCatch) m0 rest → rest.length ≤ 4) ∧
    ((∀ m m2, codec.decodeHolepunch (some (codec.encodeHolepunch m)) = Except.ok m2 →
        m2.mode = m.mode) →
      ∀ (m0 : Holepunch) (rest : List Holepunch), m0.mode = FROM_CLIENT →
        List.Chain (HolepunchStep codec safetyCatch) m0 rest → rest.length ≤ 4) := by
  refine ⟨?_, ?_, ?_, ?_⟩
  · intro r req v hs hv hdec
    have hprog := handshake_progress codec safetyCatch r req v hs hv hdec
    have hbind : (req.value.bind fun v => decode codec.decodeHandshake (some v)) = some hs := by
      simp [hv, decode, hdec]
    refine ⟨hprog.1, ?_, ?_, ?_⟩
    · intro a ha w hw
      obtain ⟨m, hm, hlt, _⟩ := hprog.2 a ha w hw
      exact ⟨m, hm, hlt⟩
    · intro hmode
      have h1 : ¬ hs.mode = FROM_CLIENT := by rw [hmode]; decide
      have h2 : ¬ hs.mode = FROM_RELAY := by rw [hmode]; decide
      have h3 : ¬ hs.mode = FROM_SECOND_RELAY := by rw [hmode]; decide
      have h4 : ¬ hs.mode = FROM_SERVER := by rw [hmode]; decide
      unfold onpeerhandshake
      rw [hbind]
      simp only [caught, h1, h2, h3, h4, if_false]
      repeat' split
      all_goals rfl
    · intro hmode hsrv
      have hcb := callback_none_of_not_server r req hsrv
      have h1 : ¬ hs.mode = FROM_CLIENT := by rw [hmode]; decide
      have h2 : ¬ hs.mode = FROM_RELAY := by rw [hmode]; decide
      have h4 : ¬ hs.mode = FROM_SERVER := by rw [hmode]; decide
      unfold onpeerhandshake
      rw [hbind]
      simp only [hcb, h1, h2, h4, if_false]
      rfl
  · intro r req v hp hv hdec
    have hprog := holepunch_progress codec safetyCatch r req v hp hv hdec
    have hbind : (req.value.bind fun v => decode codec.decodeHolepunch (some v)) = some hp := by
      simp [hv, decode, hdec]
    refine ⟨hprog.1, ?_, ?_⟩
    · intro a ha w hw
      obtain ⟨m, hm, hlt, _⟩ := hprog.2 a ha w hw
      exact ⟨m, hm, hlt⟩
    · intro hmode
      have h1 : ¬ hp.mode = FROM_CLIENT := by rw [hmode]; decide
      have h2 : ¬ hp.mode = FROM_RELAY := by rw [hmode]; decide
      have h4 : ¬ hp.mode = FROM_SERVER := by rw [hmode]; decide
      unfold onpeerholepunch
      rw [hbind]
      simp only [h1, h2, h4, if_false]
      rfl
  · intro hcodec m0 rest hstart hchain
    have hstep : ∀ a b, HandshakeStep codec safetyCatch a b →
        modeRank a.mode < modeRank b.mode ∧ modeRank b.mode ≤ 4 := by
      intro a b hab
      obtain ⟨r, req, v, w, act, hv, hdec, hact, hw, hdec2⟩ := hab
      obtain ⟨m, hm, hlt, hle⟩ :=
        (handshake_progress codec safetyCatch r req v a hv hdec).2 act hact w hw
      rw [hm] at hdec2
      rw [hcodec m b hdec2]
      exact ⟨hlt, hle⟩
    have h0 : modeRank m0.mode = 0 := by rw [hstart]; exact modeRank_client
    have hlen := chain_length_of_rank (fun m : Handshake => modeRank m.mode)
      (HandshakeStep codec safetyCatch) hstep rest m0 (by simp [h0]) hchain
    simp only [h0] at hlen
    omega
  · intro hcodec m0 rest hstart hchain
    have hstep : ∀ a b, HolepunchStep codec safetyCatch a b →
        modeRank a.mode < modeRank b.mode ∧ modeRank b.mode ≤ 4 := by
      intro a b hab
      obtain ⟨r, req, v, w, act, hv, hdec, hact, hw, hdec2⟩ := hab
      obtain ⟨m, hm, hlt, hle⟩ :=
        (holepunch_progress codec safetyCatch r req v a hv hdec).2 act hact w hw
      rw [hm] at hdec2
      rw [hcodec m b hdec2]
      exact ⟨hlt, hle⟩
    have h0 : modeRank m0.mode = 0 := by rw [hstart]; exact modeRank_client
    have hlen := chain_length_of_rank (fun m : Holepunch => modeRank m.mode)
      (HolepunchStep codec safetyCatch) hstep rest m0 (by simp [h0]) hchain
    simp only [h0] at hlen
    omega

/-- The lossy codec reads a handshake back with the mode it was written with. -/
theorem lossyCodec_keeps_handshake_mode (m m2 : Handshake)
    (h : lossyCodec.decodeHandshake (some (lossyCodec.encodeHandshake m)) = Except.ok m2) :
    m2.mode = m.mode := by
  simp only [lossyCodec] at h
  cases h
  rfl

/-- The lossy codec does not decode every handshake to what was encoded. -/
theorem lossyCodec_loses_empty_noise :
    lossyCodec.decodeHandshake (some (lossyCodec.encodeHandshake
        { mode := REPLY, noise := some [], peerAddress := none, relayAddress := none }))
      = Except.ok { mode := REPLY, noise := none, peerAddress := none, relayAddress := none } :=
  rfl

/-- Witness of C20: over a codec that keeps the mode and loses an empty noise,
the handshake that crosses two relays is a chain of four sending dispatches,
from FROM_CLIENT up to REPLY, and the example Server issues one action on a
direct handshake. -/
theorem mode_progress_witness :
    List.Chain (HandshakeStep lossyCodec safetyCatchPkg) helloMsg
      [relayedMsg, secondRelayMsg, answerMsg, replyMsg] ∧
    [relayedMsg, secondRelayMsg, answerMsg, replyMsg].length ≤ 4 ∧
    (onpeerhandshake lossyCodec safetyCatchPkg exRegistry directRequest).actions.length ≤ 1 :=
  have h1 : HandshakeStep lossyCodec safetyCatchPkg helloMsg relayedMsg :=
    ⟨relayNodeRegistry, viaRelayRequest, Sum.inl helloMsg, Sum.inl relayedMsg,
      Action.relay (Sum.inl relayedMsg) serverAddr none, rfl, rfl, by decide, rfl, rfl⟩
  have h2 : HandshakeStep lossyCodec safetyCatchPkg relayedMsg secondRelayMsg :=
    ⟨relayRegistry, relayedRequest, Sum.inl relayedMsg, Sum.inl secondRelayMsg,
      Action.relay (Sum.inl secondRelayMsg) otherAddr none, rfl, rfl, by decide, rfl, rfl⟩
  have h3 : HandshakeStep lossyCodec safetyCatchPkg secondRelayMsg answerMsg :=
    ⟨exRegistry, secondRelayRequest, Sum.inl secondRelayMsg, Sum.inl answerMsg,
      Action.relay (Sum.inl answerMsg) relayAddr
        (some { socket := some 7, to_ := none, closerNodes := false, token := false }),
      rfl, rfl, by decide, rfl, rfl⟩
  have h4 : HandshakeStep lossyCodec safetyCatchPkg answerMsg replyMsg :=
    ⟨relayNodeRegistry, serverAnswerRequest, Sum.inl answerMsg, Sum.inl replyMsg,
      Action.reply (some (Sum.inl replyMsg))
        { socket := none, to_ := some clientAddr, closerNodes := false, token := false },
      rfl, rfl, by decide, rfl, rfl⟩
  have hchain : List.Chain (HandshakeStep lossyCodec safetyCatchPkg) helloMsg
      [relayedMsg, secondRelayMsg, answerMsg, replyMsg] :=
    List.Chain.cons h1 (List.Chain.cons h2 (List.Chain.cons h3
      (List.Chain.cons h4 List.Chain.nil)))
  ⟨hchain,
    (mode_progress lossyCodec safetyCatchPkg).2.2.1 lossyCodec_keeps_handshake_mode helloMsg
      [relayedMsg, secondRelayMsg, answerMsg, replyMsg] rfl hchain,
    ((mode_progress lossyCodec safetyCatchPkg).1 exRegistry directRequest
      (Sum.inl
        { mode := FROM_CLIENT, noise := some noiseA, peerAddress := none, relayAddress := none })
      { mode := FROM_CLIENT, noise := some noiseA, peerAddress := none, relayAddress := none }
      rfl rfl).1⟩

end HolepunchRouter
